import Mathlib

/-!
Verification development for the `querylanguage` resolver
(`querylanguage/resolver.py` and `querylanguage/exceptions.py`).

The resolver (`Parser._resolve`) converts a sqlglot expression tree into
Django ORM expression objects (`Value`, `F`, `Q`, lookups such as `Exact`,
`IsNull`, `GreaterThan`, ...), while accumulating `cone(ra, dec, radius)`
parameters into the mutable `extra_params` dictionary of the `Parser`
instance.

Shallow embedding conventions:
  * sqlglot expression nodes are the inductive `SExp` (with `SExpList` for
    argument lists); only the node kinds the resolver dispatches on are
    distinguished, every other node kind is `SExp.other` (the resolver
    treats all of them alike: it raises `InvalidQuery`).
  * Django expression objects are the inductive `DExpr`; construction of
    these objects never fails in the code, so `DExpr` is a plain tree.
  * Python floats are modelled as exact rationals (`Rat`); no claim
    depends on rounding behaviour.
  * Python exceptions are the inductive `Err`.  The package's own typed
    errors (`querylanguage/exceptions.py`) are `fieldDoesNotExist`,
    `invalidQuery`, `invalidLiteral`, `invalidConeNumberArguments`.
    Besides those, the code can also surface
      - `djangoFieldDoesNotExist`: Django's own
        `django.core.exceptions.FieldDoesNotExist` raised by
        `model._meta.get_field` (in `_resolve_column` it is caught and
        re-raised as the package error only around the *final* segment
        lookup, lines 152-159),
      - `attributeError`: Python `AttributeError` (e.g. `None._meta` when a
        non-relational field is dereferenced, or `.value` on an object
        that is not a `Value`),
      - `typeError`: Python `TypeError` (unary minus on a string).
  * The mutable instance state `self.extra_params` is threaded explicitly:
    `resolve` returns `(Except Err DExpr) × ExtraParams`, returning the
    state also on failure, exactly as a raised Python exception leaves the
    mutated instance state behind.
  * The schema catalog (Django's `model._meta`) is external to the
    repository; it is modelled by its interface: a `Schema` maps a model
    identifier and a field name to `none` (no such field: `get_field`
    raises Django's `FieldDoesNotExist`), `some none` (field exists,
    `related_model` is `None`) or `some (some m)` (field exists and
    relates to model `m`).
-/

namespace QL

/-- Literal payload of a sqlglot `exp.Literal`, tagged the way
`Parser._resolve` dispatches on it (lines 34-42): `is_string` /
`is_int` / `is_number` (decimal) / anything else. -/
inductive Lit where
  | str (v : String)
  | intL (v : Int)
  | dec (v : Rat)
  | other
deriving DecidableEq, Repr

/-- A Python scalar as stored inside a Django `Value` (or as the payload of
a `Q` keyword argument). -/
inductive Scalar where
  | s (v : String)
  | i (v : Int)
  | f (v : Rat)
  | b (v : Bool)
deriving DecidableEq, Repr

/-- Python exceptions that can escape resolution.  The first four are the
package's typed errors from `querylanguage/exceptions.py`; the last three
are exceptions raised by Python / Django themselves. -/
inductive Err where
  | fieldDoesNotExist (field : String)
  | invalidQuery
  | invalidLiteral
  | invalidConeNumberArguments
  | djangoFieldDoesNotExist (model : Nat) (field : String)
  | attributeError
  | typeError
deriving DecidableEq, Repr

/-- Arithmetic connector of a Django `CombinedExpression`. -/
inductive ArithOp where
  | add
  | sub
  | mul
  | div
deriving DecidableEq, Repr

/-- Django ORM expression objects as built by `Parser._resolve`:
`Value`, `F`, `CombinedExpression`, negation, `Q(...)` wrapping,
`Q(**{name: val})` keyword form, `&`/`|`/`~` combinations, and the lookup
classes used by the resolver. -/
inductive DExpr where
  | value (v : Scalar)
  | f (name : String)
  | combined (op : ArithOp) (l r : DExpr)
  | neg (x : DExpr)
  | q (x : DExpr)
  | qkw (name : String) (v : Scalar)
  | qand (l r : DExpr)
  | qor (l r : DExpr)
  | qnot (x : DExpr)
  | exactE (l r : DExpr)
  | isnull (x : DExpr) (expectNull : Bool)
  | gt (l r : DExpr)
  | lt (l r : DExpr)
  | gte (l r : DExpr)
  | lte (l r : DExpr)
  | icontains (l r : DExpr)
  | inlist (x : DExpr) (items : List DExpr)
deriving Repr

mutual
/-- sqlglot expression nodes, restricted to the kinds `Parser._resolve`
dispatches on.  A `column` node keeps the non-final path identifiers
(`pre`) apart from the final identifier (`colId`, sqlglot's `p.this`)
whose `quoted` flag the resolver inspects; the full dotted path
`p.parts` is `pre ++ [colId]`.  Any node kind not listed is `other`. -/
inductive SExp where
  | lit (l : Lit)
  | column (pre : List String) (colId : String) (quoted : Bool)
  | nullE
  | negE (x : SExp)
  | notE (x : SExp)
  | paren (x : SExp)
  | andE (l r : SExp)
  | orE (l r : SExp)
  | eq (l r : SExp)
  | isE (l r : SExp)
  | neq (l r : SExp)
  | gtE (l r : SExp)
  | ltE (l r : SExp)
  | gteE (l r : SExp)
  | lteE (l r : SExp)
  | regexpLike (l r : SExp)
  | add (l r : SExp)
  | sub (l r : SExp)
  | mul (l r : SExp)
  | div (l r : SExp)
  | between (subj lo hi : SExp)
  | inE (subj : SExp) (items : SExpList)
  | anonymous (name : String) (args : SExpList)
  | other

/-- An ordered argument list of sqlglot nodes (`p.expressions`). -/
inductive SExpList where
  | nil
  | cons (head : SExp) (tail : SExpList)
end

/-- Length of a sqlglot argument list (`len(p.expressions)`). -/
def SExpList.length : SExpList → Nat
  | .nil => 0
  | .cons _ t => 1 + t.length

/-- One cone record of `extra_params['cones']`: the dictionary built at
lines 166-170 from the `.value` attributes of the three resolved
arguments. -/
structure Cone where
  cone_ra : Scalar
  cone_dec : Scalar
  cone_radius : Scalar
deriving DecidableEq, Repr

/-- The `Parser.extra_params` accumulator
(`dict(cones=[], aliases=dict())`, line 18). -/
structure ExtraParams where
  cones : List Cone
  aliases : List (String × String)
deriving DecidableEq, Repr

/-- The schema catalog interface of Django's `model._meta.get_field`:
`none` means the field does not exist (Django raises its
`FieldDoesNotExist`), `some rel` means the field exists with
`related_model` equal to `rel` (`none` for a non-relational field). -/
def Schema := Nat → String → Option (Option Nat)

/-- The `while len(parts) > 1` loop of `_resolve_column` (lines 147-150):
descend through the related models named by the non-final path segments.
`model` is an `Option` because `related_model` can be `None`, in which
case the next `model._meta` access raises `AttributeError`. -/
def walk (s : Schema) (model : Option Nat) : List String → Except Err (Option Nat)
  | [] => .ok model
  | cur :: rest =>
    match model with
    | none => .error .attributeError
    | some mm =>
      match s mm cur with
      | none => .error (.djangoFieldDoesNotExist mm cur)
      | some rel => walk s rel rest

/-- `Parser._resolve_column` (lines 138-159).  The non-final segments are
consumed by `walk`; only the final-segment lookup sits inside the
`try ... except django_exceptions.FieldDoesNotExist` block, so only a
missing *final* segment is converted into the package's typed
`FieldDoesNotExist(parts[0].this)`.  On success the full dotted path is
joined with `"__"` into an `F` object. -/
def resolveColumn (s : Schema) (m : Nat) (pre : List String) (colId : String) :
    Except Err DExpr :=
  match walk s (some m) pre with
  | .error e => .error e
  | .ok none => .error .attributeError
  | .ok (some mf) =>
    match s mf colId with
    | none => .error (.fieldDoesNotExist colId)
    | some _ => .ok (.f (String.intercalate "__" (pre ++ [colId])))

/-- Reading the `.value` attribute of a resolved object: only a Django
`Value` has it; on `F`, `Q`, lookups and combined expressions Python
raises `AttributeError` (used by `_resolve_cone`, lines 167-169). -/
def getValueAttr : DExpr → Except Err Scalar
  | .value v => .ok v
  | _ => .error .attributeError

/-- Python unary minus on a scalar (`-self._resolve(p.this).value`,
line 55): negates numbers (a bool is an int in Python), raises
`TypeError` on a string. -/
def negScalar : Scalar → Except Err Scalar
  | .i n => .ok (.i (-n))
  | .f q => .ok (.f (-q))
  | .b bv => .ok (.i (if bv then -1 else 0))
  | .s _ => .error .typeError

/-- The synthetic field name built at lines 173-182:
`cone_query` when the accumulator held `0` cones before the append,
`cone_query{n}` when it held `n > 0`. -/
def coneName (n : Nat) : String :=
  "cone_query" ++ (if n = 0 then "" else toString n)

/-- Python's `str.lower()` as used in `p.this.lower() == 'cone'`
(line 131), written over the character list so that it evaluates by
kernel reduction (function names are ASCII). -/
def lowerStr (nm : String) : String := ⟨nm.data.map Char.toLower⟩

/-- The test `isinstance(p.this, exp.Literal) & (not p.this.is_string)`
guarding the literal-negation branch of `exp.Neg` (line 53). -/
def isNonStringLit : SExp → Bool
  | .lit (.str _) => false
  | .lit _ => true
  | _ => false

/-- The test `isinstance(p.right, exp.Null)` used by the `EQ` / `Is` /
`NEQ` branches (lines 76, 82, 88). -/
def isNullE : SExp → Bool
  | .nullE => true
  | _ => false

/-- Sequencing of resolution steps: a raised exception propagates, but the
(already mutated) accumulator state is kept either way. -/
def bindR (x : (Except Err DExpr) × ExtraParams)
    (g : DExpr → ExtraParams → (Except Err DExpr) × ExtraParams) :
    (Except Err DExpr) × ExtraParams :=
  match x with
  | (.ok v, ep) => g v ep
  | (.error e, ep) => (.error e, ep)

mutual
/-- `Parser._resolve` (lines 30-136), with the instance state
`extra_params` threaded explicitly.  Each branch mirrors one
`isinstance` arm of the Python dispatch, in source order. -/
def resolve (s : Schema) (m : Nat) : SExp → ExtraParams → (Except Err DExpr) × ExtraParams
  | .lit (.str v), ep => (.ok (.value (.s v)), ep)
  | .lit (.intL n), ep => (.ok (.value (.i n)), ep)
  | .lit (.dec q), ep => (.ok (.value (.f q)), ep)
  | .lit .other, ep => (.error .invalidLiteral, ep)
  | .column pre colId quoted, ep =>
    if quoted then (.ok (.value (.s colId)), ep)
    else (resolveColumn s m pre colId, ep)
  | .negE x, ep =>
    if isNonStringLit x then
      bindR (resolve s m x ep) fun v ep1 =>
        match getValueAttr v with
        | .error e => (.error e, ep1)
        | .ok sc =>
          match negScalar sc with
          | .error e => (.error e, ep1)
          | .ok sc2 => (.ok (.value sc2), ep1)
    else
      bindR (resolve s m x ep) fun v ep1 => (.ok (.neg v), ep1)
  | .notE x, ep =>
    bindR (resolve s m x ep) fun v ep1 => (.ok (.qnot (.q v)), ep1)
  | .paren x, ep => resolve s m x ep
  | .andE l r, ep =>
    bindR (resolve s m l ep) fun lv ep1 =>
      bindR (resolve s m r ep1) fun rv ep2 => (.ok (.qand (.q lv) (.q rv)), ep2)
  | .orE l r, ep =>
    bindR (resolve s m l ep) fun lv ep1 =>
      bindR (resolve s m r ep1) fun rv ep2 => (.ok (.qor (.q lv) (.q rv)), ep2)
  | .eq l r, ep =>
    if isNullE r then
      bindR (resolve s m l ep) fun lv ep1 => (.ok (.isnull lv true), ep1)
    else
      bindR (resolve s m l ep) fun lv ep1 =>
        bindR (resolve s m r ep1) fun rv ep2 => (.ok (.exactE lv rv), ep2)
  | .isE l r, ep =>
    if isNullE r then
      bindR (resolve s m l ep) fun lv ep1 => (.ok (.isnull lv true), ep1)
    else
      bindR (resolve s m l ep) fun lv ep1 =>
        bindR (resolve s m r ep1) fun rv ep2 => (.ok (.exactE lv rv), ep2)
  | .neq l r, ep =>
    if isNullE r then
      bindR (resolve s m l ep) fun lv ep1 => (.ok (.isnull lv false), ep1)
    else
      bindR (resolve s m l ep) fun lv ep1 =>
        bindR (resolve s m r ep1) fun rv ep2 => (.ok (.qnot (.exactE lv rv)), ep2)
  | .gtE l r, ep =>
    bindR (resolve s m l ep) fun lv ep1 =>
      bindR (resolve s m r ep1) fun rv ep2 => (.ok (.gt lv rv), ep2)
  | .ltE l r, ep =>
    bindR (resolve s m l ep) fun lv ep1 =>
      bindR (resolve s m r ep1) fun rv ep2 => (.ok (.lt lv rv), ep2)
  | .gteE l r, ep =>
    bindR (resolve s m l ep) fun lv ep1 =>
      bindR (resolve s m r ep1) fun rv ep2 => (.ok (.gte lv rv), ep2)
  | .lteE l r, ep =>
    bindR (resolve s m l ep) fun lv ep1 =>
      bindR (resolve s m r ep1) fun rv ep2 => (.ok (.lte lv rv), ep2)
  | .regexpLike l r, ep =>
    bindR (resolve s m l ep) fun lv ep1 =>
      bindR (resolve s m r ep1) fun rv ep2 => (.ok (.icontains lv rv), ep2)
  | .add l r, ep =>
    bindR (resolve s m l ep) fun lv ep1 =>
      bindR (resolve s m r ep1) fun rv ep2 => (.ok (.combined .add lv rv), ep2)
  | .sub l r, ep =>
    bindR (resolve s m l ep) fun lv ep1 =>
      bindR (resolve s m r ep1) fun rv ep2 => (.ok (.combined .sub lv rv), ep2)
  | .mul l r, ep =>
    bindR (resolve s m l ep) fun lv ep1 =>
      bindR (resolve s m r ep1) fun rv ep2 => (.ok (.combined .mul lv rv), ep2)
  | .div l r, ep =>
    bindR (resolve s m l ep) fun lv ep1 =>
      bindR (resolve s m r ep1) fun rv ep2 => (.ok (.combined .div lv rv), ep2)
  | .between subj lo hi, ep =>
    bindR (resolve s m subj ep) fun v1 ep1 =>
      bindR (resolve s m lo ep1) fun v2 ep2 =>
        bindR (resolve s m subj ep2) fun v3 ep3 =>
          bindR (resolve s m hi ep3) fun v4 ep4 =>
            (.ok (.qand (.gte v1 v2) (.lte v3 v4)), ep4)
  | .inE subj items, ep =>
    bindR (resolve s m subj ep) fun sv ep1 =>
      match resolveList s m items ep1 with
      | (.ok vs, ep2) => (.ok (.inlist sv vs), ep2)
      | (.error e, ep2) => (.error e, ep2)
  | .anonymous nm args, ep =>
    if lowerStr nm = "cone" then resolveCone s m args ep
    else (.error .invalidQuery, ep)
  | .nullE, ep => (.error .invalidQuery, ep)
  | .other, ep => (.error .invalidQuery, ep)

/-- The list comprehension `[self._resolve(r) for r in p.expressions]` of
the `exp.In` branch (line 127): resolve the members left to right. -/
def resolveList (s : Schema) (m : Nat) :
    SExpList → ExtraParams → (Except Err (List DExpr)) × ExtraParams
  | .nil, ep => (.ok [], ep)
  | .cons h t, ep =>
    match resolve s m h ep with
    | (.error e, ep1) => (.error e, ep1)
    | (.ok v, ep1) =>
      match resolveList s m t ep1 with
      | (.error e, ep2) => (.error e, ep2)
      | (.ok vs, ep2) => (.ok (v :: vs), ep2)

/-- `Parser._resolve_cone` (lines 161-184): check the arity, resolve the
three arguments in order taking `.value` of each, read the accumulator
length, append the cone record, and return `Q(**{f"cone_query{i}": True})`.
The non-3-element match arms are unreachable (the arity check has already
raised) and only make the pattern match exhaustive. -/
def resolveCone (s : Schema) (m : Nat) (args : SExpList) (ep : ExtraParams) :
    (Except Err DExpr) × ExtraParams :=
  if args.length ≠ 3 then (.error .invalidConeNumberArguments, ep)
  else
    match args with
    | .cons a (.cons b (.cons c .nil)) =>
      match resolve s m a ep with
      | (.error e, ep1) => (.error e, ep1)
      | (.ok va, ep1) =>
        match getValueAttr va with
        | .error e => (.error e, ep1)
        | .ok ra =>
          match resolve s m b ep1 with
          | (.error e, ep2) => (.error e, ep2)
          | (.ok vb, ep2) =>
            match getValueAttr vb with
            | .error e => (.error e, ep2)
            | .ok dec =>
              match resolve s m c ep2 with
              | (.error e, ep3) => (.error e, ep3)
              | (.ok vc, ep3) =>
                match getValueAttr vc with
                | .error e => (.error e, ep3)
                | .ok rad =>
                  (.ok (.qkw (coneName ep3.cones.length) (.b true)),
                   { ep3 with cones := ep3.cones ++ [⟨ra, dec, rad⟩] })
    | .nil => (.error .invalidConeNumberArguments, ep)
    | .cons _ .nil => (.error .invalidConeNumberArguments, ep)
    | .cons _ (.cons _ .nil) => (.error .invalidConeNumberArguments, ep)
    | .cons _ (.cons _ (.cons _ (.cons _ _))) =>
      (.error .invalidConeNumberArguments, ep)
end

/-- The scalar a cone argument contributes to its cone record: the
`.value` attribute of the argument resolved in isolation (arguments that
successfully reach a cone record are scalar `Value`s, whose resolution
neither reads nor writes the accumulator, so a fresh empty accumulator is
used here; the fallback `.b false` is never reached on a successful
resolution). -/
def argVal (s : Schema) (m : Nat) (e : SExp) : Scalar :=
  match (resolve s m e ⟨[], []⟩).1 with
  | .ok v =>
    match getValueAttr v with
    | .ok sc => sc
    | .error _ => .b false
  | .error _ => .b false

mutual
/-- Specification-side ghost traversal: the list of cone records a
successful resolution of the node appends, in the order the resolver
visits cone calls.  This is the left-to-right depth-first order of the
source tree, except that the subject of a `BETWEEN` node is resolved
twice (lines 123-124 call `self._resolve(p.this)` once per bound), so its
cone records appear once per bound. -/
def coneRecs (s : Schema) (m : Nat) : SExp → List Cone
  | .lit _ => []
  | .column _ _ _ => []
  | .nullE => []
  | .other => []
  | .negE x => coneRecs s m x
  | .notE x => coneRecs s m x
  | .paren x => coneRecs s m x
  | .andE l r => coneRecs s m l ++ coneRecs s m r
  | .orE l r => coneRecs s m l ++ coneRecs s m r
  | .eq l r => coneRecs s m l ++ coneRecs s m r
  | .isE l r => coneRecs s m l ++ coneRecs s m r
  | .neq l r => coneRecs s m l ++ coneRecs s m r
  | .gtE l r => coneRecs s m l ++ coneRecs s m r
  | .ltE l r => coneRecs s m l ++ coneRecs s m r
  | .gteE l r => coneRecs s m l ++ coneRecs s m r
  | .lteE l r => coneRecs s m l ++ coneRecs s m r
  | .regexpLike l r => coneRecs s m l ++ coneRecs s m r
  | .add l r => coneRecs s m l ++ coneRecs s m r
  | .sub l r => coneRecs s m l ++ coneRecs s m r
  | .mul l r => coneRecs s m l ++ coneRecs s m r
  | .div l r => coneRecs s m l ++ coneRecs s m r
  | .between subj lo hi =>
    coneRecs s m subj ++ coneRecs s m lo ++ coneRecs s m subj ++ coneRecs s m hi
  | .inE subj items => coneRecs s m subj ++ coneRecsL s m items
  | .anonymous nm args =>
    if lowerStr nm = "cone" then coneRecsC s m args else []

/-- Ghost cone records of one cone call: the records of the three
arguments (nested cone calls are appended before their `.value` read
fails) followed by this call's own record.  Argument lists of other
lengths fail the arity check before resolving anything. -/
def coneRecsC (s : Schema) (m : Nat) : SExpList → List Cone
  | .cons a (.cons b (.cons c .nil)) =>
    coneRecs s m a ++ coneRecs s m b ++ coneRecs s m c ++
      [⟨argVal s m a, argVal s m b, argVal s m c⟩]
  | _ => []

/-- Ghost cone records of an argument list, left to right. -/
def coneRecsL (s : Schema) (m : Nat) : SExpList → List Cone
  | .nil => []
  | .cons h t => coneRecs s m h ++ coneRecsL s m t
end

mutual
/-- Number of syntactic cone call sites in a tree (each `anonymous` node
whose name lowercases to `"cone"` counts once, wherever it appears). -/
def coneCallCount : SExp → Nat
  | .lit _ => 0
  | .column _ _ _ => 0
  | .nullE => 0
  | .other => 0
  | .negE x => coneCallCount x
  | .notE x => coneCallCount x
  | .paren x => coneCallCount x
  | .andE l r => coneCallCount l + coneCallCount r
  | .orE l r => coneCallCount l + coneCallCount r
  | .eq l r => coneCallCount l + coneCallCount r
  | .isE l r => coneCallCount l + coneCallCount r
  | .neq l r => coneCallCount l + coneCallCount r
  | .gtE l r => coneCallCount l + coneCallCount r
  | .ltE l r => coneCallCount l + coneCallCount r
  | .gteE l r => coneCallCount l + coneCallCount r
  | .lteE l r => coneCallCount l + coneCallCount r
  | .regexpLike l r => coneCallCount l + coneCallCount r
  | .add l r => coneCallCount l + coneCallCount r
  | .sub l r => coneCallCount l + coneCallCount r
  | .mul l r => coneCallCount l + coneCallCount r
  | .div l r => coneCallCount l + coneCallCount r
  | .between subj lo hi => coneCallCount subj + coneCallCount lo + coneCallCount hi
  | .inE subj items => coneCallCount subj + coneCallCountL items
  | .anonymous nm args =>
    (if lowerStr nm = "cone" then 1 else 0) + coneCallCountL args

/-- Cone call sites in an argument list. -/
def coneCallCountL : SExpList → Nat
  | .nil => 0
  | .cons h t => coneCallCount h + coneCallCountL t
end

mutual
/-- True when a `NullLiteral` occurs anywhere other than as the immediate
right operand of an `eq` / `isE` / `neq` node (the only places the
resolver consumes a `Null` without recursing into it). -/
def containsBadNull : SExp → Bool
  | .nullE => true
  | .lit _ => false
  | .column _ _ _ => false
  | .other => false
  | .negE x => containsBadNull x
  | .notE x => containsBadNull x
  | .paren x => containsBadNull x
  | .andE l r => containsBadNull l || containsBadNull r
  | .orE l r => containsBadNull l || containsBadNull r
  | .eq l r => containsBadNull l || (if isNullE r then false else containsBadNull r)
  | .isE l r => containsBadNull l || (if isNullE r then false else containsBadNull r)
  | .neq l r => containsBadNull l || (if isNullE r then false else containsBadNull r)
  | .gtE l r => containsBadNull l || containsBadNull r
  | .ltE l r => containsBadNull l || containsBadNull r
  | .gteE l r => containsBadNull l || containsBadNull r
  | .lteE l r => containsBadNull l || containsBadNull r
  | .regexpLike l r => containsBadNull l || containsBadNull r
  | .add l r => containsBadNull l || containsBadNull r
  | .sub l r => containsBadNull l || containsBadNull r
  | .mul l r => containsBadNull l || containsBadNull r
  | .div l r => containsBadNull l || containsBadNull r
  | .between subj lo hi =>
    containsBadNull subj || containsBadNull lo || containsBadNull hi
  | .inE subj items => containsBadNull subj || containsBadNullL items
  | .anonymous _ args => containsBadNullL args

/-- Badly placed `NullLiteral` somewhere in an argument list. -/
def containsBadNullL : SExpList → Bool
  | .nil => false
  | .cons h t => containsBadNull h || containsBadNullL t
end

mutual
/-- True when every cone call site in the tree has exactly 3 arguments. -/
def noBadCone : SExp → Bool
  | .lit _ => true
  | .column _ _ _ => true
  | .nullE => true
  | .other => true
  | .negE x => noBadCone x
  | .notE x => noBadCone x
  | .paren x => noBadCone x
  | .andE l r => noBadCone l && noBadCone r
  | .orE l r => noBadCone l && noBadCone r
  | .eq l r => noBadCone l && noBadCone r
  | .isE l r => noBadCone l && noBadCone r
  | .neq l r => noBadCone l && noBadCone r
  | .gtE l r => noBadCone l && noBadCone r
  | .ltE l r => noBadCone l && noBadCone r
  | .gteE l r => noBadCone l && noBadCone r
  | .lteE l r => noBadCone l && noBadCone r
  | .regexpLike l r => noBadCone l && noBadCone r
  | .add l r => noBadCone l && noBadCone r
  | .sub l r => noBadCone l && noBadCone r
  | .mul l r => noBadCone l && noBadCone r
  | .div l r => noBadCone l && noBadCone r
  | .between subj lo hi => noBadCone subj && noBadCone lo && noBadCone hi
  | .inE subj items => noBadCone subj && noBadConeL items
  | .anonymous nm args =>
    (if lowerStr nm = "cone" then args.length == 3 else true) && noBadConeL args

/-- Every cone call site in an argument list has exactly 3 arguments. -/
def noBadConeL : SExpList → Bool
  | .nil => true
  | .cons h t => noBadCone h && noBadConeL t
end

/-- Every non-final segment of a dotted path exists on the model it is
looked up on and names a relational field; this is the validity condition
on the prefix of a path under which the specification's description of
field-path resolution matches the code. -/
def prefixOk (s : Schema) (m : Nat) : List String → Bool
  | [] => true
  | cur :: rest =>
    match s m cur with
    | some (some m2) => prefixOk s m2 rest
    | _ => false

/-- True for the package's own typed errors from
`querylanguage/exceptions.py`, false for exceptions raised by Python or
Django themselves. -/
def isTypedErr : Err → Bool
  | .fieldDoesNotExist _ => true
  | .invalidQuery => true
  | .invalidLiteral => true
  | .invalidConeNumberArguments => true
  | .djangoFieldDoesNotExist _ _ => false
  | .attributeError => false
  | .typeError => false

/-- Schema with no fields at all. -/
def schemaEmpty : Schema := fun _ _ => none

/-- Schema in which model `0` has the plain (non-relational) fields `ra`
and `b`, and nothing else. -/
def schemaFlat : Schema := fun m fld =>
  match m, fld with
  | 0, "ra" => some none
  | 0, "b" => some none
  | _, _ => none

/-- Schema in which model `0` has a relational field `rel` pointing at
model `1`, which has a plain field `x`. -/
def schemaRel : Schema := fun m fld =>
  match m, fld with
  | 0, "rel" => some (some 1)
  | 1, "x" => some none
  | _, _ => none

/-- A fresh accumulator, as built by `Parser.__init__`. -/
def freshParams : ExtraParams := ⟨[], []⟩

/-! ## State-threading helper lemmas -/

/-- The aliases component survives a single `bindR` step whose
continuation keeps the state unchanged. -/
theorem bindR1_aliases (x : (Except Err DExpr) × ExtraParams)
    (g : DExpr → DExpr) (A : List (String × String)) (hx : x.2.aliases = A) :
    ((bindR x fun lv ep1 => (.ok (g lv), ep1)).2).aliases = A := by
  rcases x with ⟨rx, ep1⟩
  cases rx <;> exact hx

/-- The aliases component survives a two-step resolution chain. -/
theorem bindR2_aliases (x : (Except Err DExpr) × ExtraParams)
    (F : ExtraParams → (Except Err DExpr) × ExtraParams)
    (g : DExpr → DExpr → DExpr) (A : List (String × String)) (hx : x.2.aliases = A)
    (hF : ∀ ep, ((F ep).2).aliases = ep.aliases) :
    ((bindR x fun lv ep1 =>
       bindR (F ep1) fun rv ep2 => (.ok (g lv rv), ep2)).2).aliases = A := by
  rcases x with ⟨rx, ep1⟩
  cases rx with
  | error e => exact hx
  | ok lv =>
    have h2 := hF ep1
    rcases hF2 : F ep1 with ⟨rf, ep2⟩
    rw [hF2] at h2
    show ((bindR (F ep1) _).2).aliases = A
    rw [hF2]
    cases rf with
    | error e => exact h2.trans hx
    | ok rv => exact h2.trans hx

/-- The aliases component survives the four-step chain of the `BETWEEN`
branch. -/
theorem bindR4_aliases (x : (Except Err DExpr) × ExtraParams)
    (F2 F3 F4 : ExtraParams → (Except Err DExpr) × ExtraParams)
    (g : DExpr → DExpr → DExpr → DExpr → DExpr) (A : List (String × String))
    (hx : x.2.aliases = A)
    (h2 : ∀ ep, ((F2 ep).2).aliases = ep.aliases)
    (h3 : ∀ ep, ((F3 ep).2).aliases = ep.aliases)
    (h4 : ∀ ep, ((F4 ep).2).aliases = ep.aliases) :
    ((bindR x fun v1 ep1 =>
       bindR (F2 ep1) fun v2 ep2 =>
         bindR (F3 ep2) fun v3 ep3 =>
           bindR (F4 ep3) fun v4 ep4 => (.ok (g v1 v2 v3 v4), ep4)).2).aliases = A := by
  rcases x with ⟨rx, ep1⟩
  cases rx with
  | error e => exact hx
  | ok v1 =>
    show ((bindR (F2 ep1) _).2).aliases = A
    have hh2 := h2 ep1
    rcases hF2 : F2 ep1 with ⟨r2, ep2⟩
    rw [hF2] at hh2
    cases r2 with
    | error e => exact hh2.trans hx
    | ok v2 =>
      show ((bindR (F3 ep2) _).2).aliases = A
      have hh3 := h3 ep2
      rcases hF3 : F3 ep2 with ⟨r3, ep3⟩
      rw [hF3] at hh3
      cases r3 with
      | error e => exact (hh3.trans hh2).trans hx
      | ok v3 =>
        show ((bindR (F4 ep3) _).2).aliases = A
        have hh4 := h4 ep3
        rcases hF4 : F4 ep3 with ⟨r4, ep4⟩
        rw [hF4] at hh4
        cases r4 with
        | error e => exact ((hh4.trans hh3).trans hh2).trans hx
        | ok v4 => exact ((hh4.trans hh3).trans hh2).trans hx

mutual
/-- No branch of `_resolve` ever writes the `aliases` component of
`extra_params`: resolution of any node, successful or failed, leaves it
untouched. -/
theorem resolve_aliases (s : Schema) (m : Nat) (p : SExp) (ep : ExtraParams) :
    ((resolve s m p ep).2).aliases = ep.aliases := by
  cases p with
  | lit l => cases l <;> rfl
  | column pre colId quoted => cases quoted <;> rfl
  | nullE => rfl
  | other => rfl
  | paren x => exact resolve_aliases s m x ep
  | negE x =>
    have h1 := resolve_aliases s m x ep
    simp only [resolve]
    split
    · rcases hx : resolve s m x ep with ⟨rx, ep1⟩
      rw [hx] at h1
      cases rx with
      | error e => exact h1
      | ok v =>
        dsimp only [bindR]
        cases getValueAttr v with
        | error e => exact h1
        | ok sc =>
          dsimp only
          cases negScalar sc with
          | error e => exact h1
          | ok sc2 => exact h1
    · rcases hx : resolve s m x ep with ⟨rx, ep1⟩
      rw [hx] at h1
      cases rx with
      | error e => exact h1
      | ok v => exact h1
  | notE x =>
    simp only [resolve]
    exact bindR1_aliases _ _ _ (resolve_aliases s m x ep)
  | andE l r =>
    simp only [resolve]
    exact bindR2_aliases _ _ _ _ (resolve_aliases s m l ep)
      (fun ep1 => resolve_aliases s m r ep1)
  | orE l r =>
    simp only [resolve]
    exact bindR2_aliases _ _ _ _ (resolve_aliases s m l ep)
      (fun ep1 => resolve_aliases s m r ep1)
  | eq l r =>
    simp only [resolve]
    split
    · exact bindR1_aliases _ _ _ (resolve_aliases s m l ep)
    · exact bindR2_aliases _ _ _ _ (resolve_aliases s m l ep)
        (fun ep1 => resolve_aliases s m r ep1)
  | isE l r =>
    simp only [resolve]
    split
    · exact bindR1_aliases _ _ _ (resolve_aliases s m l ep)
    · exact bindR2_aliases _ _ _ _ (resolve_aliases s m l ep)
        (fun ep1 => resolve_aliases s m r ep1)
  | neq l r =>
    simp only [resolve]
    split
    · exact bindR1_aliases _ _ _ (resolve_aliases s m l ep)
    · exact bindR2_aliases _ _ _ _ (resolve_aliases s m l ep)
        (fun ep1 => resolve_aliases s m r ep1)
  | gtE l r =>
    simp only [resolve]
    exact bindR2_aliases _ _ _ _ (resolve_aliases s m l ep)
      (fun ep1 => resolve_aliases s m r ep1)
  | ltE l r =>
    simp only [resolve]
    exact bindR2_aliases _ _ _ _ (resolve_aliases s m l ep)
      (fun ep1 => resolve_aliases s m r ep1)
  | gteE l r =>
    simp only [resolve]
    exact bindR2_aliases _ _ _ _ (resolve_aliases s m l ep)
      (fun ep1 => resolve_aliases s m r ep1)
  | lteE l r =>
    simp only [resolve]
    exact bindR2_aliases _ _ _ _ (resolve_aliases s m l ep)
      (fun ep1 => resolve_aliases s m r ep1)
  | regexpLike l r =>
    simp only [resolve]
    exact bindR2_aliases _ _ _ _ (resolve_aliases s m l ep)
      (fun ep1 => resolve_aliases s m r ep1)
  | add l r =>
    simp only [resolve]
    exact bindR2_aliases _ _ _ _ (resolve_aliases s m l ep)
      (fun ep1 => resolve_aliases s m r ep1)
  | sub l r =>
    simp only [resolve]
    exact bindR2_aliases _ _ _ _ (resolve_aliases s m l ep)
      (fun ep1 => resolve_aliases s m r ep1)
  | mul l r =>
    simp only [resolve]
    exact bindR2_aliases _ _ _ _ (resolve_aliases s m l ep)
      (fun ep1 => resolve_aliases s m r ep1)
  | div l r =>
    simp only [resolve]
    exact bindR2_aliases _ _ _ _ (resolve_aliases s m l ep)
      (fun ep1 => resolve_aliases s m r ep1)
  | between subj lo hi =>
    simp only [resolve]
    exact bindR4_aliases _ _ _ _ _ _ (resolve_aliases s m subj ep)
      (fun ep1 => resolve_aliases s m lo ep1)
      (fun ep2 => resolve_aliases s m subj ep2)
      (fun ep3 => resolve_aliases s m hi ep3)
  | inE subj items =>
    have h1 := resolve_aliases s m subj ep
    simp only [resolve]
    rcases hs : resolve s m subj ep with ⟨rs, ep1⟩
    rw [hs] at h1
    cases rs with
    | error e => exact h1
    | ok sv =>
      dsimp only [bindR]
      have h2 := resolveList_aliases s m items ep1
      rcases hl : resolveList s m items ep1 with ⟨rl, ep2⟩
      rw [hl] at h2
      cases rl with
      | error e => exact h2.trans h1
      | ok vs => exact h2.trans h1
  | anonymous nm args =>
    simp only [resolve]
    split
    · exact resolveCone_aliases s m args ep
    · rfl
termination_by sizeOf p

/-- Resolving a member list also leaves the aliases map untouched. -/
theorem resolveList_aliases (s : Schema) (m : Nat) (ps : SExpList) (ep : ExtraParams) :
    ((resolveList s m ps ep).2).aliases = ep.aliases := by
  cases ps with
  | nil => rfl
  | cons hd t =>
    have h1 := resolve_aliases s m hd ep
    simp only [resolveList]
    rcases hh : resolve s m hd ep with ⟨rh, ep1⟩
    rw [hh] at h1
    cases rh with
    | error e => exact h1
    | ok v =>
      dsimp only
      have h2 := resolveList_aliases s m t ep1
      rcases ht : resolveList s m t ep1 with ⟨rt, ep2⟩
      rw [ht] at h2
      cases rt with
      | error e => exact h2.trans h1
      | ok vs => exact h2.trans h1
termination_by sizeOf ps

/-- `_resolve_cone` only appends to `cones`; it never writes the aliases
map either. -/
theorem resolveCone_aliases (s : Schema) (m : Nat) (args : SExpList) (ep : ExtraParams) :
    ((resolveCone s m args ep).2).aliases = ep.aliases := by
  cases args with
  | nil => rfl
  | cons a t1 =>
    cases t1 with
    | nil => rfl
    | cons b t2 =>
      cases t2 with
      | nil => rfl
      | cons c t3 =>
        cases t3 with
        | cons d t4 =>
          have hlen : (SExpList.cons a (SExpList.cons b (SExpList.cons c
              (SExpList.cons d t4)))).length ≠ 3 := by
            simp only [SExpList.length]
            omega
          rw [resolveCone, if_pos hlen]
        | nil =>
          rw [resolveCone, if_neg (by simp [SExpList.length])]
          have h1 := resolve_aliases s m a ep
          rcases ha : resolve s m a ep with ⟨ra, ep1⟩
          rw [ha] at h1
          cases ra with
          | error e => exact h1
          | ok va =>
            dsimp only
            cases getValueAttr va with
            | error e => exact h1
            | ok ra2 =>
              dsimp only
              have h2 := resolve_aliases s m b ep1
              rcases hb : resolve s m b ep1 with ⟨rb, ep2⟩
              rw [hb] at h2
              cases rb with
              | error e => exact h2.trans h1
              | ok vb =>
                dsimp only
                cases getValueAttr vb with
                | error e => exact h2.trans h1
                | ok dec2 =>
                  dsimp only
                  have h3 := resolve_aliases s m c ep2
                  rcases hc : resolve s m c ep2 with ⟨rc, ep3⟩
                  rw [hc] at h3
                  cases rc with
                  | error e => exact (h3.trans h2).trans h1
                  | ok vc =>
                    dsimp only
                    cases getValueAttr vc with
                    | error e => exact (h3.trans h2).trans h1
                    | ok rad => exact (h3.trans h2).trans h1
termination_by sizeOf args
end

/-! ## Occurrence of InvalidConeNumberArguments -/

/-- A one-step chain never produces an error the scrutinee does not. -/
theorem bindR1_err (x : (Except Err DExpr) × ExtraParams) (g : DExpr → DExpr)
    (E : Err) (hx : x.1 ≠ .error E) :
    (bindR x fun lv ep1 => (.ok (g lv), ep1)).1 ≠ .error E := by
  rcases x with ⟨rx, ep1⟩
  cases rx with
  | error e => exact hx
  | ok lv => simp [bindR]

/-- A two-step chain only produces errors of its two sub-resolutions. -/
theorem bindR2_err (x : (Except Err DExpr) × ExtraParams)
    (F : ExtraParams → (Except Err DExpr) × ExtraParams)
    (g : DExpr → DExpr → DExpr) (E : Err) (hx : x.1 ≠ .error E)
    (hF : ∀ ep, ((F ep).1) ≠ .error E) :
    (bindR x fun lv ep1 =>
      bindR (F ep1) fun rv ep2 => (.ok (g lv rv), ep2)).1 ≠ .error E := by
  rcases x with ⟨rx, ep1⟩
  cases rx with
  | error e => exact hx
  | ok lv =>
    show (bindR (F ep1) _).1 ≠ .error E
    have h2 := hF ep1
    rcases hF2 : F ep1 with ⟨rf, ep2⟩
    rw [hF2] at h2
    cases rf with
    | error e => exact h2
    | ok rv => simp [bindR]

/-- A four-step chain only produces errors of its four sub-resolutions. -/
theorem bindR4_err (x : (Except Err DExpr) × ExtraParams)
    (F2 F3 F4 : ExtraParams → (Except Err DExpr) × ExtraParams)
    (g : DExpr → DExpr → DExpr → DExpr → DExpr) (E : Err) (hx : x.1 ≠ .error E)
    (h2 : ∀ ep, ((F2 ep).1) ≠ .error E)
    (h3 : ∀ ep, ((F3 ep).1) ≠ .error E)
    (h4 : ∀ ep, ((F4 ep).1) ≠ .error E) :
    (bindR x fun v1 ep1 =>
      bindR (F2 ep1) fun v2 ep2 =>
        bindR (F3 ep2) fun v3 ep3 =>
          bindR (F4 ep3) fun v4 ep4 => (.ok (g v1 v2 v3 v4), ep4)).1 ≠ .error E := by
  rcases x with ⟨rx, ep1⟩
  cases rx with
  | error e => exact hx
  | ok v1 =>
    show (bindR (F2 ep1) _).1 ≠ .error E
    have hh2 := h2 ep1
    rcases hF2 : F2 ep1 with ⟨r2, ep2⟩
    rw [hF2] at hh2
    cases r2 with
    | error e => exact hh2
    | ok v2 =>
      show (bindR (F3 ep2) _).1 ≠ .error E
      have hh3 := h3 ep2
      rcases hF3 : F3 ep2 with ⟨r3, ep3⟩
      rw [hF3] at hh3
      cases r3 with
      | error e => exact hh3
      | ok v3 =>
        show (bindR (F4 ep3) _).1 ≠ .error E
        have hh4 := h4 ep3
        rcases hF4 : F4 ep3 with ⟨r4, ep4⟩
        rw [hF4] at hh4
        cases r4 with
        | error e => exact hh4
        | ok v4 => simp [bindR]

/-- An error coming out of a `.value` attribute read is always
`AttributeError`. -/
theorem getValueAttr_error (v : DExpr) (e : Err) (h : getValueAttr v = .error e) :
    e = .attributeError := by
  cases v <;> simp_all [getValueAttr]

/-- An error coming out of scalar negation is always `TypeError`. -/
theorem negScalar_error (sc : Scalar) (e : Err) (h : negScalar sc = .error e) :
    e = .typeError := by
  cases sc <;> simp_all [negScalar]

/-- The schema walk of `_resolve_column` only raises Django's
`FieldDoesNotExist` or `AttributeError`, never the cone arity error. -/
theorem walk_ne_icna (s : Schema) (model : Option Nat) (ps : List String) :
    walk s model ps ≠ .error .invalidConeNumberArguments := by
  induction ps generalizing model with
  | nil => simp [walk]
  | cons cur rest ih =>
    simp only [walk]
    cases model with
    | none => simp
    | some mm =>
      dsimp only
      rcases hcur : s mm cur with _ | rel
      · simp
      · dsimp only
        exact ih rel

/-- `_resolve_column` never raises the cone arity error. -/
theorem resolveColumn_ne_icna (s : Schema) (m : Nat) (pre : List String) (colId : String) :
    resolveColumn s m pre colId ≠ .error .invalidConeNumberArguments := by
  have hw := walk_ne_icna s (some m) pre
  rw [resolveColumn]
  rcases hwe : walk s (some m) pre with e | om
  · rw [hwe] at hw
    dsimp only
    intro hcontra
    apply hw
    injection hcontra with h2
    rw [h2]
  · cases om with
    | none => simp
    | some mf =>
      dsimp only
      rcases hcol : s mf colId with _ | fd
      · simp
      · simp

mutual
/-- If every cone call site in the tree has exactly 3 arguments, no part
of resolution raises `InvalidConeNumberArguments`. -/
theorem resolve_no_icna (s : Schema) (m : Nat) (p : SExp) (ep : ExtraParams)
    (h : noBadCone p = true) :
    (resolve s m p ep).1 ≠ .error .invalidConeNumberArguments := by
  cases p with
  | lit l => cases l <;> simp [resolve]
  | column pre colId quoted =>
    cases quoted with
    | true => simp [resolve]
    | false =>
      simp only [resolve, Bool.false_eq_true, if_false]
      exact resolveColumn_ne_icna s m pre colId
  | nullE => simp [resolve]
  | other => simp [resolve]
  | paren x => exact resolve_no_icna s m x ep h
  | negE x =>
    simp only [noBadCone] at h
    have h1 := resolve_no_icna s m x ep h
    simp only [resolve]
    split
    · rcases hx : resolve s m x ep with ⟨rx, ep1⟩
      rw [hx] at h1
      cases rx with
      | error e => exact h1
      | ok v =>
        dsimp only [bindR]
        rcases hga : getValueAttr v with e | sc
        · have he := getValueAttr_error v e hga
          subst he
          simp
        · dsimp only
          rcases hns : negScalar sc with e | sc2
          · have he := negScalar_error sc e hns
            subst he
            simp
          · simp
    · rcases hx : resolve s m x ep with ⟨rx, ep1⟩
      rw [hx] at h1
      cases rx with
      | error e => exact h1
      | ok v => simp [bindR]
  | notE x =>
    simp only [noBadCone] at h
    simp only [resolve]
    exact bindR1_err _ _ _ (resolve_no_icna s m x ep h)
  | andE l r =>
    simp only [noBadCone, Bool.and_eq_true] at h
    simp only [resolve]
    exact bindR2_err _ _ _ _ (resolve_no_icna s m l ep h.1)
      (fun ep1 => resolve_no_icna s m r ep1 h.2)
  | orE l r =>
    simp only [noBadCone, Bool.and_eq_true] at h
    simp only [resolve]
    exact bindR2_err _ _ _ _ (resolve_no_icna s m l ep h.1)
      (fun ep1 => resolve_no_icna s m r ep1 h.2)
  | eq l r =>
    simp only [noBadCone, Bool.and_eq_true] at h
    simp only [resolve]
    split
    · exact bindR1_err _ _ _ (resolve_no_icna s m l ep h.1)
    · exact bindR2_err _ _ _ _ (resolve_no_icna s m l ep h.1)
        (fun ep1 => resolve_no_icna s m r ep1 h.2)
  | isE l r =>
    simp only [noBadCone, Bool.and_eq_true] at h
    simp only [resolve]
    split
    · exact bindR1_err _ _ _ (resolve_no_icna s m l ep h.1)
    · exact bindR2_err _ _ _ _ (resolve_no_icna s m l ep h.1)
        (fun ep1 => resolve_no_icna s m r ep1 h.2)
  | neq l r =>
    simp only [noBadCone, Bool.and_eq_true] at h
    simp only [resolve]
    split
    · exact bindR1_err _ _ _ (resolve_no_icna s m l ep h.1)
    · refine bindR2_err _ _ _ _ (resolve_no_icna s m l ep h.1)
        (fun ep1 => resolve_no_icna s m r ep1 h.2)
  | gtE l r =>
    simp only [noBadCone, Bool.and_eq_true] at h
    simp only [resolve]
    exact bindR2_err _ _ _ _ (resolve_no_icna s m l ep h.1)
      (fun ep1 => resolve_no_icna s m r ep1 h.2)
  | ltE l r =>
    simp only [noBadCone, Bool.and_eq_true] at h
    simp only [resolve]
    exact bindR2_err _ _ _ _ (resolve_no_icna s m l ep h.1)
      (fun ep1 => resolve_no_icna s m r ep1 h.2)
  | gteE l r =>
    simp only [noBadCone, Bool.and_eq_true] at h
    simp only [resolve]
    exact bindR2_err _ _ _ _ (resolve_no_icna s m l ep h.1)
      (fun ep1 => resolve_no_icna s m r ep1 h.2)
  | lteE l r =>
    simp only [noBadCone, Bool.and_eq_true] at h
    simp only [resolve]
    exact bindR2_err _ _ _ _ (resolve_no_icna s m l ep h.1)
      (fun ep1 => resolve_no_icna s m r ep1 h.2)
  | regexpLike l r =>
    simp only [noBadCone, Bool.and_eq_true] at h
    simp only [resolve]
    exact bindR2_err _ _ _ _ (resolve_no_icna s m l ep h.1)
      (fun ep1 => resolve_no_icna s m r ep1 h.2)
  | add l r =>
    simp only [noBadCone, Bool.and_eq_true] at h
    simp only [resolve]
    exact bindR2_err _ _ _ _ (resolve_no_icna s m l ep h.1)
      (fun ep1 => resolve_no_icna s m r ep1 h.2)
  | sub l r =>
    simp only [noBadCone, Bool.and_eq_true] at h
    simp only [resolve]
    exact bindR2_err _ _ _ _ (resolve_no_icna s m l ep h.1)
      (fun ep1 => resolve_no_icna s m r ep1 h.2)
  | mul l r =>
    simp only [noBadCone, Bool.and_eq_true] at h
    simp only [resolve]
    exact bindR2_err _ _ _ _ (resolve_no_icna s m l ep h.1)
      (fun ep1 => resolve_no_icna s m r ep1 h.2)
  | div l r =>
    simp only [noBadCone, Bool.and_eq_true] at h
    simp only [resolve]
    exact bindR2_err _ _ _ _ (resolve_no_icna s m l ep h.1)
      (fun ep1 => resolve_no_icna s m r ep1 h.2)
  | between subj lo hi =>
    simp only [noBadCone, Bool.and_eq_true] at h
    simp only [resolve]
    exact bindR4_err _ _ _ _ _ _ (resolve_no_icna s m subj ep h.1.1)
      (fun ep1 => resolve_no_icna s m lo ep1 h.1.2)
      (fun ep2 => resolve_no_icna s m subj ep2 h.1.1)
      (fun ep3 => resolve_no_icna s m hi ep3 h.2)
  | inE subj items =>
    simp only [noBadCone, Bool.and_eq_true] at h
    have h1 := resolve_no_icna s m subj ep h.1
    simp only [resolve]
    rcases hs : resolve s m subj ep with ⟨rs, ep1⟩
    rw [hs] at h1
    cases rs with
    | error e => exact h1
    | ok sv =>
      dsimp only [bindR]
      have h2 := resolveList_no_icna s m items ep1 h.2
      rcases hl : resolveList s m items ep1 with ⟨rl, ep2⟩
      rw [hl] at h2
      cases rl with
      | error e =>
        dsimp only
        simpa using h2
      | ok vs => simp
  | anonymous nm args =>
    simp only [resolve]
    split
    case isTrue hc =>
      simp only [noBadCone, hc, if_pos, Bool.and_eq_true, beq_iff_eq] at h
      exact resolveCone_no_icna s m args ep h.1 h.2
    case isFalse hc => simp
termination_by sizeOf p

/-- List version of `resolve_no_icna`. -/
theorem resolveList_no_icna (s : Schema) (m : Nat) (ps : SExpList) (ep : ExtraParams)
    (h : noBadConeL ps = true) :
    (resolveList s m ps ep).1 ≠ .error .invalidConeNumberArguments := by
  cases ps with
  | nil => simp [resolveList]
  | cons hd t =>
    simp only [noBadConeL, Bool.and_eq_true] at h
    have h1 := resolve_no_icna s m hd ep h.1
    simp only [resolveList]
    rcases hh : resolve s m hd ep with ⟨rh, ep1⟩
    rw [hh] at h1
    cases rh with
    | error e =>
      dsimp only
      simpa using h1
    | ok v =>
      dsimp only
      have h2 := resolveList_no_icna s m t ep1 h.2
      rcases ht : resolveList s m t ep1 with ⟨rt, ep2⟩
      rw [ht] at h2
      cases rt with
      | error e =>
        dsimp only
        simpa using h2
      | ok vs => simp
termination_by sizeOf ps

/-- A cone call with exactly 3 arguments, none of whose argument subtrees
contains a cone call of wrong arity, never surfaces
`InvalidConeNumberArguments`. -/
theorem resolveCone_no_icna (s : Schema) (m : Nat) (args : SExpList) (ep : ExtraParams)
    (h3 : args.length = 3) (hl : noBadConeL args = true) :
    (resolveCone s m args ep).1 ≠ .error .invalidConeNumberArguments := by
  cases args with
  | nil => simp [SExpList.length] at h3
  | cons a t1 =>
    cases t1 with
    | nil => simp [SExpList.length] at h3
    | cons b t2 =>
      cases t2 with
      | nil => simp [SExpList.length] at h3
      | cons c t3 =>
        cases t3 with
        | cons d t4 =>
          simp only [SExpList.length] at h3
          omega
        | nil =>
          simp only [noBadConeL, Bool.and_eq_true] at hl
          rw [resolveCone, if_neg (by simp [SExpList.length])]
          have h1 := resolve_no_icna s m a ep hl.1
          rcases ha : resolve s m a ep with ⟨ra, ep1⟩
          rw [ha] at h1
          cases ra with
          | error e =>
            dsimp only
            exact h1
          | ok va =>
            dsimp only
            rcases hga : getValueAttr va with e | ra2
            · have he := getValueAttr_error va e hga
              subst he
              simp
            · dsimp only
              have h2 := resolve_no_icna s m b ep1 hl.2.1
              rcases hb : resolve s m b ep1 with ⟨rb, ep2⟩
              rw [hb] at h2
              cases rb with
              | error e =>
                dsimp only
                exact h2
              | ok vb =>
                dsimp only
                rcases hgb : getValueAttr vb with e | dec2
                · have he := getValueAttr_error vb e hgb
                  subst he
                  simp
                · dsimp only
                  have hh3 := resolve_no_icna s m c ep2 hl.2.2.1
                  rcases hc : resolve s m c ep2 with ⟨rc, ep3⟩
                  rw [hc] at hh3
                  cases rc with
                  | error e =>
                    dsimp only
                    exact hh3
                  | ok vc =>
                    dsimp only
                    rcases hgc : getValueAttr vc with e | rad
                    · have he := getValueAttr_error vc e hgc
                      subst he
                      simp
                    · simp
termination_by sizeOf args
end

/-! ## Success-extraction lemmas -/

/-- A successful `.value` attribute read means the object was a `Value`. -/
theorem getValueAttr_ok (v : DExpr) (sc : Scalar) (h : getValueAttr v = .ok sc) :
    v = .value sc := by
  cases v <;> simp_all [getValueAttr]

/-- The `isinstance(p.right, exp.Null)` test succeeds exactly on the
`Null` node. -/
theorem isNullE_true (r : SExp) (h : isNullE r = true) : r = .nullE := by
  cases r <;> simp_all [isNullE]

/-- Decomposition of a successful one-step chain. -/
theorem bindR1_ok (x : (Except Err DExpr) × ExtraParams) (g : DExpr → DExpr)
    (v : DExpr) (ep' : ExtraParams)
    (h : (bindR x fun lv ep1 => (.ok (g lv), ep1)) = (.ok v, ep')) :
    ∃ lv, x = (.ok lv, ep') ∧ v = g lv := by
  rcases x with ⟨rx, ep1⟩
  cases rx with
  | error e => simp [bindR] at h
  | ok lv =>
    dsimp only [bindR] at h
    simp only [Prod.mk.injEq, Except.ok.injEq] at h
    exact ⟨lv, by rw [h.2], h.1.symm⟩

/-- Decomposition of a successful two-step chain. -/
theorem bindR2_ok (x : (Except Err DExpr) × ExtraParams)
    (F : ExtraParams → (Except Err DExpr) × ExtraParams)
    (g : DExpr → DExpr → DExpr) (v : DExpr) (ep' : ExtraParams)
    (h : (bindR x fun lv ep1 =>
           bindR (F ep1) fun rv ep2 => (.ok (g lv rv), ep2)) = (.ok v, ep')) :
    ∃ lv ep1 rv, x = (.ok lv, ep1) ∧ F ep1 = (.ok rv, ep') ∧ v = g lv rv := by
  rcases x with ⟨rx, ep1⟩
  cases rx with
  | error e => simp [bindR] at h
  | ok lv =>
    dsimp only [bindR] at h
    rcases hF : F ep1 with ⟨rf, ep2⟩
    rw [hF] at h
    cases rf with
    | error e => simp [bindR] at h
    | ok rv =>
      dsimp only [bindR] at h
      simp only [Prod.mk.injEq, Except.ok.injEq] at h
      exact ⟨lv, ep1, rv, rfl, by rw [hF, h.2], h.1.symm⟩

/-- Decomposition of the successful four-step chain of `BETWEEN`. -/
theorem bindR4_ok (x : (Except Err DExpr) × ExtraParams)
    (F2 F3 F4 : ExtraParams → (Except Err DExpr) × ExtraParams)
    (g : DExpr → DExpr → DExpr → DExpr → DExpr) (v : DExpr) (ep' : ExtraParams)
    (h : (bindR x fun v1 ep1 =>
           bindR (F2 ep1) fun v2 ep2 =>
             bindR (F3 ep2) fun v3 ep3 =>
               bindR (F4 ep3) fun v4 ep4 => (.ok (g v1 v2 v3 v4), ep4)) = (.ok v, ep')) :
    ∃ v1 ep1 v2 ep2 v3 ep3 v4,
      x = (.ok v1, ep1) ∧ F2 ep1 = (.ok v2, ep2) ∧ F3 ep2 = (.ok v3, ep3) ∧
      F4 ep3 = (.ok v4, ep') ∧ v = g v1 v2 v3 v4 := by
  rcases x with ⟨rx, ep1⟩
  cases rx with
  | error e => simp [bindR] at h
  | ok v1 =>
    dsimp only [bindR] at h
    rcases hF2 : F2 ep1 with ⟨r2, ep2⟩
    rw [hF2] at h
    cases r2 with
    | error e => simp [bindR] at h
    | ok v2 =>
      dsimp only [bindR] at h
      rcases hF3 : F3 ep2 with ⟨r3, ep3⟩
      rw [hF3] at h
      cases r3 with
      | error e => simp [bindR] at h
      | ok v3 =>
        dsimp only [bindR] at h
        rcases hF4 : F4 ep3 with ⟨r4, ep4⟩
        rw [hF4] at h
        cases r4 with
        | error e => simp [bindR] at h
        | ok v4 =>
          dsimp only [bindR] at h
          simp only [Prod.mk.injEq, Except.ok.injEq] at h
          exact ⟨v1, ep1, v2, ep2, v3, ep3, v4, rfl, hF2, hF3,
            by rw [hF4, h.2], h.1.symm⟩

/-- A successful `_resolve_column` always returns the joined `F` object. -/
theorem resolveColumn_ok (s : Schema) (m : Nat) (pre : List String) (colId : String)
    (dv : DExpr) (h : resolveColumn s m pre colId = .ok dv) :
    dv = .f (String.intercalate "__" (pre ++ [colId])) := by
  rw [resolveColumn] at h
  rcases hwe : walk s (some m) pre with e2 | om
  · rw [hwe] at h
    simp at h
  · rw [hwe] at h
    cases om with
    | none => simp at h
    | some mf =>
      dsimp only at h
      rcases hcol : s mf colId with _ | fd
      · rw [hcol] at h
        simp at h
      · rw [hcol] at h
        dsimp only at h
        simp only [Except.ok.injEq] at h
        exact h.symm

/-- `_resolve_cone` never returns a bare `Value`. -/
theorem resolveCone_fst_ne_value (s : Schema) (m : Nat) (args : SExpList)
    (ep : ExtraParams) (v : Scalar) :
    (resolveCone s m args ep).1 ≠ .ok (.value v) := by
  cases args with
  | nil => simp [resolveCone, SExpList.length]
  | cons a t1 =>
    cases t1 with
    | nil => simp [resolveCone, SExpList.length]
    | cons b t2 =>
      cases t2 with
      | nil => simp [resolveCone, SExpList.length]
      | cons c t3 =>
        cases t3 with
        | cons d t4 =>
          have hlen : (SExpList.cons a (SExpList.cons b (SExpList.cons c
              (SExpList.cons d t4)))).length ≠ 3 := by
            simp only [SExpList.length]
            omega
          rw [resolveCone, if_pos hlen]
          simp
        | nil =>
          rw [resolveCone, if_neg (by simp [SExpList.length])]
          rcases ha : resolve s m a ep with ⟨ra, ep1⟩
          cases ra with
          | error e => simp
          | ok va =>
            dsimp only
            rcases hga : getValueAttr va with e | ra2
            · simp
            · dsimp only
              rcases hb : resolve s m b ep1 with ⟨rb, ep2⟩
              cases rb with
              | error e => simp
              | ok vb =>
                dsimp only
                rcases hgb : getValueAttr vb with e | dec2
                · simp
                · dsimp only
                  rcases hc : resolve s m c ep2 with ⟨rc, ep3⟩
                  cases rc with
                  | error e => simp
                  | ok vc =>
                    dsimp only
                    rcases hgc : getValueAttr vc with e | rad
                    · simp
                    · simp

/-- A resolution that returns a bare `Value` comes from one of the
state-independent branches (literal, quoted column, negated numeric
literal, possibly parenthesised): it leaves the accumulator untouched,
contains no cone call, and returns the same `Value` under any
accumulator state. -/
theorem resolve_value_shape (s : Schema) (m : Nat) (e : SExp) (ep ep' : ExtraParams)
    (v : Scalar) (h : resolve s m e ep = (.ok (.value v), ep')) :
    ep' = ep ∧ coneRecs s m e = [] ∧
      ∀ ep2, resolve s m e ep2 = (.ok (.value v), ep2) := by
  cases e with
  | lit l =>
    cases l with
    | str sv =>
      simp only [resolve, Prod.mk.injEq, Except.ok.injEq, DExpr.value.injEq] at h
      exact ⟨h.2.symm, rfl, fun ep2 => by rw [← h.1]; rfl⟩
    | intL n =>
      simp only [resolve, Prod.mk.injEq, Except.ok.injEq, DExpr.value.injEq] at h
      exact ⟨h.2.symm, rfl, fun ep2 => by rw [← h.1]; rfl⟩
    | dec q =>
      simp only [resolve, Prod.mk.injEq, Except.ok.injEq, DExpr.value.injEq] at h
      exact ⟨h.2.symm, rfl, fun ep2 => by rw [← h.1]; rfl⟩
    | other => simp [resolve] at h
  | column pre colId quoted =>
    cases quoted with
    | true =>
      simp only [resolve, if_true, Prod.mk.injEq, Except.ok.injEq, DExpr.value.injEq] at h
      exact ⟨h.2.symm, rfl, fun ep2 => by rw [← h.1]; rfl⟩
    | false =>
      simp only [resolve, Bool.false_eq_true, if_false, Prod.mk.injEq] at h
      have hcol := resolveColumn_ok s m pre colId _ h.1
      simp at hcol
  | nullE => simp [resolve] at h
  | other => simp [resolve] at h
  | paren x =>
    simp only [resolve] at h
    obtain ⟨h1, h2, h3⟩ := resolve_value_shape s m x ep ep' v h
    refine ⟨h1, by simpa [coneRecs] using h2, fun ep2 => ?_⟩
    simp only [resolve]
    exact h3 ep2
  | negE x =>
    simp only [resolve] at h
    split at h
    case isTrue hlit =>
      cases x with
      | lit l =>
        cases l with
        | str sv => simp [isNonStringLit] at hlit
        | intL n =>
          simp only [resolve, bindR, getValueAttr, negScalar, Prod.mk.injEq,
            Except.ok.injEq, DExpr.value.injEq] at h
          refine ⟨h.2.symm, rfl, fun ep2 => ?_⟩
          rw [← h.1]
          rfl
        | dec q =>
          simp only [resolve, bindR, getValueAttr, negScalar, Prod.mk.injEq,
            Except.ok.injEq, DExpr.value.injEq] at h
          refine ⟨h.2.symm, rfl, fun ep2 => ?_⟩
          rw [← h.1]
          rfl
        | other => simp [resolve, bindR] at h
      | nullE => simp [isNonStringLit] at hlit
      | column pre colId quoted => simp [isNonStringLit] at hlit
      | negE y => simp [isNonStringLit] at hlit
      | notE y => simp [isNonStringLit] at hlit
      | paren y => simp [isNonStringLit] at hlit
      | andE l r => simp [isNonStringLit] at hlit
      | orE l r => simp [isNonStringLit] at hlit
      | eq l r => simp [isNonStringLit] at hlit
      | isE l r => simp [isNonStringLit] at hlit
      | neq l r => simp [isNonStringLit] at hlit
      | gtE l r => simp [isNonStringLit] at hlit
      | ltE l r => simp [isNonStringLit] at hlit
      | gteE l r => simp [isNonStringLit] at hlit
      | lteE l r => simp [isNonStringLit] at hlit
      | regexpLike l r => simp [isNonStringLit] at hlit
      | add l r => simp [isNonStringLit] at hlit
      | sub l r => simp [isNonStringLit] at hlit
      | mul l r => simp [isNonStringLit] at hlit
      | div l r => simp [isNonStringLit] at hlit
      | between a b c => simp [isNonStringLit] at hlit
      | inE subj items => simp [isNonStringLit] at hlit
      | anonymous nm args => simp [isNonStringLit] at hlit
      | other => simp [isNonStringLit] at hlit
    case isFalse hlit =>
      rcases hx : resolve s m x ep with ⟨rx, ep1⟩
      rw [hx] at h
      cases rx with
      | error e2 => simp [bindR] at h
      | ok w =>
        dsimp only [bindR] at h
        simp at h
  | notE x =>
    simp only [resolve] at h
    obtain ⟨lv, hx, hv⟩ := bindR1_ok _ _ _ _ h
    simp at hv
  | andE l r =>
    simp only [resolve] at h
    obtain ⟨lv, ep1, rv, h1, h2, hv⟩ := bindR2_ok _ _ _ _ _ h
    simp at hv
  | orE l r =>
    simp only [resolve] at h
    obtain ⟨lv, ep1, rv, h1, h2, hv⟩ := bindR2_ok _ _ _ _ _ h
    simp at hv
  | eq l r =>
    simp only [resolve] at h
    split at h
    · obtain ⟨lv, hx, hv⟩ := bindR1_ok _ _ _ _ h
      simp at hv
    · obtain ⟨lv, ep1, rv, h1, h2, hv⟩ := bindR2_ok _ _ _ _ _ h
      simp at hv
  | isE l r =>
    simp only [resolve] at h
    split at h
    · obtain ⟨lv, hx, hv⟩ := bindR1_ok _ _ _ _ h
      simp at hv
    · obtain ⟨lv, ep1, rv, h1, h2, hv⟩ := bindR2_ok _ _ _ _ _ h
      simp at hv
  | neq l r =>
    simp only [resolve] at h
    split at h
    · obtain ⟨lv, hx, hv⟩ := bindR1_ok _ _ _ _ h
      simp at hv
    · obtain ⟨lv, ep1, rv, h1, h2, hv⟩ := bindR2_ok _ _ _ _ _ h
      simp at hv
  | gtE l r =>
    simp only [resolve] at h
    obtain ⟨lv, ep1, rv, h1, h2, hv⟩ := bindR2_ok _ _ _ _ _ h
    simp at hv
  | ltE l r =>
    simp only [resolve] at h
    obtain ⟨lv, ep1, rv, h1, h2, hv⟩ := bindR2_ok _ _ _ _ _ h
    simp at hv
  | gteE l r =>
    simp only [resolve] at h
    obtain ⟨lv, ep1, rv, h1, h2, hv⟩ := bindR2_ok _ _ _ _ _ h
    simp at hv
  | lteE l r =>
    simp only [resolve] at h
    obtain ⟨lv, ep1, rv, h1, h2, hv⟩ := bindR2_ok _ _ _ _ _ h
    simp at hv
  | regexpLike l r =>
    simp only [resolve] at h
    obtain ⟨lv, ep1, rv, h1, h2, hv⟩ := bindR2_ok _ _ _ _ _ h
    simp at hv
  | add l r =>
    simp only [resolve] at h
    obtain ⟨lv, ep1, rv, h1, h2, hv⟩ := bindR2_ok _ _ _ _ _ h
    simp at hv
  | sub l r =>
    simp only [resolve] at h
    obtain ⟨lv, ep1, rv, h1, h2, hv⟩ := bindR2_ok _ _ _ _ _ h
    simp at hv
  | mul l r =>
    simp only [resolve] at h
    obtain ⟨lv, ep1, rv, h1, h2, hv⟩ := bindR2_ok _ _ _ _ _ h
    simp at hv
  | div l r =>
    simp only [resolve] at h
    obtain ⟨lv, ep1, rv, h1, h2, hv⟩ := bindR2_ok _ _ _ _ _ h
    simp at hv
  | between subj lo hi =>
    simp only [resolve] at h
    obtain ⟨v1, ep1, v2, ep2, v3, ep3, v4, h1, h2, h3, h4, hv⟩ := bindR4_ok _ _ _ _ _ _ _ h
    simp at hv
  | inE subj items =>
    simp only [resolve] at h
    rcases hs : resolve s m subj ep with ⟨rs, ep1⟩
    rw [hs] at h
    cases rs with
    | error e2 => simp [bindR] at h
    | ok sv =>
      dsimp only [bindR] at h
      rcases hl : resolveList s m items ep1 with ⟨rl, ep2⟩
      rw [hl] at h
      cases rl with
      | error e2 => simp at h
      | ok vs =>
        dsimp only at h
        simp at h
  | anonymous nm args =>
    simp only [resolve] at h
    split at h
    · exact absurd (by rw [h]) (resolveCone_fst_ne_value s m args ep v)
    · simp at h
termination_by sizeOf e

set_option maxHeartbeats 1000000 in
mutual
/-- On every successful resolution the accumulator grows by exactly the
ghost record list `coneRecs` (the records of the cone calls in resolver
visit order), and the tree contains no badly placed `Null` node. -/
theorem resolve_ok_cones (s : Schema) (m : Nat) (p : SExp) (ep : ExtraParams)
    (v : DExpr) (ep' : ExtraParams) (h : resolve s m p ep = (.ok v, ep')) :
    ep'.cones = ep.cones ++ coneRecs s m p ∧ containsBadNull p = false := by
  cases p with
  | lit l =>
    cases l with
    | str sv =>
      simp only [resolve, Prod.mk.injEq] at h
      rw [← h.2]
      exact ⟨by simp [coneRecs], rfl⟩
    | intL n =>
      simp only [resolve, Prod.mk.injEq] at h
      rw [← h.2]
      exact ⟨by simp [coneRecs], rfl⟩
    | dec q =>
      simp only [resolve, Prod.mk.injEq] at h
      rw [← h.2]
      exact ⟨by simp [coneRecs], rfl⟩
    | other => simp [resolve] at h
  | column pre colId quoted =>
    cases quoted with
    | true =>
      simp only [resolve, if_true, Prod.mk.injEq] at h
      rw [← h.2]
      exact ⟨by simp [coneRecs], rfl⟩
    | false =>
      simp only [resolve, Bool.false_eq_true, if_false, Prod.mk.injEq] at h
      rw [← h.2]
      exact ⟨by simp [coneRecs], rfl⟩
  | nullE => simp [resolve] at h
  | other => simp [resolve] at h
  | paren x =>
    simp only [resolve] at h
    have IH := resolve_ok_cones s m x ep v ep' h
    exact ⟨by simpa [coneRecs] using IH.1, by simpa [containsBadNull] using IH.2⟩
  | negE x =>
    simp only [resolve] at h
    split at h
    case isTrue hlit =>
      rcases hx : resolve s m x ep with ⟨rx, ep1⟩
      rw [hx] at h
      cases rx with
      | error e2 => simp [bindR] at h
      | ok w =>
        dsimp only [bindR] at h
        rcases hga : getValueAttr w with e2 | sc
        · rw [hga] at h
          simp at h
        · rw [hga] at h
          dsimp only at h
          rcases hns : negScalar sc with e2 | sc2
          · rw [hns] at h
            simp at h
          · rw [hns] at h
            dsimp only at h
            simp only [Prod.mk.injEq] at h
            have IH := resolve_ok_cones s m x ep _ _ hx
            rw [← h.2]
            exact ⟨by simp only [coneRecs]; exact IH.1,
              by simpa [containsBadNull] using IH.2⟩
    case isFalse hlit =>
      obtain ⟨w, hx, _⟩ := bindR1_ok _ _ _ _ h
      have IH := resolve_ok_cones s m x ep _ _ hx
      exact ⟨by simp only [coneRecs]; exact IH.1,
        by simpa [containsBadNull] using IH.2⟩
  | notE x =>
    simp only [resolve] at h
    obtain ⟨w, hx, _⟩ := bindR1_ok _ _ _ _ h
    have IH := resolve_ok_cones s m x ep _ _ hx
    exact ⟨by simp only [coneRecs]; exact IH.1,
      by simpa [containsBadNull] using IH.2⟩
  | andE l r =>
    simp only [resolve] at h
    obtain ⟨lv, ep1, rv, h1, h2, _⟩ := bindR2_ok _ _ _ _ _ h
    have IH1 := resolve_ok_cones s m l ep _ _ h1
    have IH2 := resolve_ok_cones s m r ep1 _ _ h2
    refine ⟨?_, ?_⟩
    · simp only [coneRecs]
      rw [IH2.1, IH1.1, List.append_assoc]
    · simp [containsBadNull, IH1.2, IH2.2]
  | orE l r =>
    simp only [resolve] at h
    obtain ⟨lv, ep1, rv, h1, h2, _⟩ := bindR2_ok _ _ _ _ _ h
    have IH1 := resolve_ok_cones s m l ep _ _ h1
    have IH2 := resolve_ok_cones s m r ep1 _ _ h2
    refine ⟨?_, ?_⟩
    · simp only [coneRecs]
      rw [IH2.1, IH1.1, List.append_assoc]
    · simp [containsBadNull, IH1.2, IH2.2]
  | eq l r =>
    simp only [resolve] at h
    split at h
    case isTrue hn =>
      obtain ⟨lv, h1, _⟩ := bindR1_ok _ _ _ _ h
      have IH1 := resolve_ok_cones s m l ep _ _ h1
      have hr := isNullE_true r hn
      subst hr
      exact ⟨by simp [coneRecs, IH1.1], by simp [containsBadNull, isNullE, IH1.2]⟩
    case isFalse hn =>
      obtain ⟨lv, ep1, rv, h1, h2, _⟩ := bindR2_ok _ _ _ _ _ h
      have IH1 := resolve_ok_cones s m l ep _ _ h1
      have IH2 := resolve_ok_cones s m r ep1 _ _ h2
      refine ⟨?_, ?_⟩
      · simp only [coneRecs]
        rw [IH2.1, IH1.1, List.append_assoc]
      · simp [containsBadNull, hn, IH1.2, IH2.2]
  | isE l r =>
    simp only [resolve] at h
    split at h
    case isTrue hn =>
      obtain ⟨lv, h1, _⟩ := bindR1_ok _ _ _ _ h
      have IH1 := resolve_ok_cones s m l ep _ _ h1
      have hr := isNullE_true r hn
      subst hr
      exact ⟨by simp [coneRecs, IH1.1], by simp [containsBadNull, isNullE, IH1.2]⟩
    case isFalse hn =>
      obtain ⟨lv, ep1, rv, h1, h2, _⟩ := bindR2_ok _ _ _ _ _ h
      have IH1 := resolve_ok_cones s m l ep _ _ h1
      have IH2 := resolve_ok_cones s m r ep1 _ _ h2
      refine ⟨?_, ?_⟩
      · simp only [coneRecs]
        rw [IH2.1, IH1.1, List.append_assoc]
      · simp [containsBadNull, hn, IH1.2, IH2.2]
  | neq l r =>
    simp only [resolve] at h
    split at h
    case isTrue hn =>
      obtain ⟨lv, h1, _⟩ := bindR1_ok _ _ _ _ h
      have IH1 := resolve_ok_cones s m l ep _ _ h1
      have hr := isNullE_true r hn
      subst hr
      exact ⟨by simp [coneRecs, IH1.1], by simp [containsBadNull, isNullE, IH1.2]⟩
    case isFalse hn =>
      obtain ⟨lv, ep1, rv, h1, h2, _⟩ := bindR2_ok _ _ _ _ _ h
      have IH1 := resolve_ok_cones s m l ep _ _ h1
      have IH2 := resolve_ok_cones s m r ep1 _ _ h2
      refine ⟨?_, ?_⟩
      · simp only [coneRecs]
        rw [IH2.1, IH1.1, List.append_assoc]
      · simp [containsBadNull, hn, IH1.2, IH2.2]
  | gtE l r =>
    simp only [resolve] at h
    obtain ⟨lv, ep1, rv, h1, h2, _⟩ := bindR2_ok _ _ _ _ _ h
    have IH1 := resolve_ok_cones s m l ep _ _ h1
    have IH2 := resolve_ok_cones s m r ep1 _ _ h2
    refine ⟨?_, ?_⟩
    · simp only [coneRecs]
      rw [IH2.1, IH1.1, List.append_assoc]
    · simp [containsBadNull, IH1.2, IH2.2]
  | ltE l r =>
    simp only [resolve] at h
    obtain ⟨lv, ep1, rv, h1, h2, _⟩ := bindR2_ok _ _ _ _ _ h
    have IH1 := resolve_ok_cones s m l ep _ _ h1
    have IH2 := resolve_ok_cones s m r ep1 _ _ h2
    refine ⟨?_, ?_⟩
    · simp only [coneRecs]
      rw [IH2.1, IH1.1, List.append_assoc]
    · simp [containsBadNull, IH1.2, IH2.2]
  | gteE l r =>
    simp only [resolve] at h
    obtain ⟨lv, ep1, rv, h1, h2, _⟩ := bindR2_ok _ _ _ _ _ h
    have IH1 := resolve_ok_cones s m l ep _ _ h1
    have IH2 := resolve_ok_cones s m r ep1 _ _ h2
    refine ⟨?_, ?_⟩
    · simp only [coneRecs]
      rw [IH2.1, IH1.1, List.append_assoc]
    · simp [containsBadNull, IH1.2, IH2.2]
  | lteE l r =>
    simp only [resolve] at h
    obtain ⟨lv, ep1, rv, h1, h2, _⟩ := bindR2_ok _ _ _ _ _ h
    have IH1 := resolve_ok_cones s m l ep _ _ h1
    have IH2 := resolve_ok_cones s m r ep1 _ _ h2
    refine ⟨?_, ?_⟩
    · simp only [coneRecs]
      rw [IH2.1, IH1.1, List.append_assoc]
    · simp [containsBadNull, IH1.2, IH2.2]
  | regexpLike l r =>
    simp only [resolve] at h
    obtain ⟨lv, ep1, rv, h1, h2, _⟩ := bindR2_ok _ _ _ _ _ h
    have IH1 := resolve_ok_cones s m l ep _ _ h1
    have IH2 := resolve_ok_cones s m r ep1 _ _ h2
    refine ⟨?_, ?_⟩
    · simp only [coneRecs]
      rw [IH2.1, IH1.1, List.append_assoc]
    · simp [containsBadNull, IH1.2, IH2.2]
  | add l r =>
    simp only [resolve] at h
    obtain ⟨lv, ep1, rv, h1, h2, _⟩ := bindR2_ok _ _ _ _ _ h
    have IH1 := resolve_ok_cones s m l ep _ _ h1
    have IH2 := resolve_ok_cones s m r ep1 _ _ h2
    refine ⟨?_, ?_⟩
    · simp only [coneRecs]
      rw [IH2.1, IH1.1, List.append_assoc]
    · simp [containsBadNull, IH1.2, IH2.2]
  | sub l r =>
    simp only [resolve] at h
    obtain ⟨lv, ep1, rv, h1, h2, _⟩ := bindR2_ok _ _ _ _ _ h
    have IH1 := resolve_ok_cones s m l ep _ _ h1
    have IH2 := resolve_ok_cones s m r ep1 _ _ h2
    refine ⟨?_, ?_⟩
    · simp only [coneRecs]
      rw [IH2.1, IH1.1, List.append_assoc]
    · simp [containsBadNull, IH1.2, IH2.2]
  | mul l r =>
    simp only [resolve] at h
    obtain ⟨lv, ep1, rv, h1, h2, _⟩ := bindR2_ok _ _ _ _ _ h
    have IH1 := resolve_ok_cones s m l ep _ _ h1
    have IH2 := resolve_ok_cones s m r ep1 _ _ h2
    refine ⟨?_, ?_⟩
    · simp only [coneRecs]
      rw [IH2.1, IH1.1, List.append_assoc]
    · simp [containsBadNull, IH1.2, IH2.2]
  | div l r =>
    simp only [resolve] at h
    obtain ⟨lv, ep1, rv, h1, h2, _⟩ := bindR2_ok _ _ _ _ _ h
    have IH1 := resolve_ok_cones s m l ep _ _ h1
    have IH2 := resolve_ok_cones s m r ep1 _ _ h2
    refine ⟨?_, ?_⟩
    · simp only [coneRecs]
      rw [IH2.1, IH1.1, List.append_assoc]
    · simp [containsBadNull, IH1.2, IH2.2]
  | between subj lo hi =>
    simp only [resolve] at h
    obtain ⟨v1, ep1, v2, ep2, v3, ep3, v4, h1, h2, h3, h4, _⟩ := bindR4_ok _ _ _ _ _ _ _ h
    have IH1 := resolve_ok_cones s m subj ep _ _ h1
    have IH2 := resolve_ok_cones s m lo ep1 _ _ h2
    have IH3 := resolve_ok_cones s m subj ep2 _ _ h3
    have IH4 := resolve_ok_cones s m hi ep3 _ _ h4
    refine ⟨?_, ?_⟩
    · simp only [coneRecs]
      rw [IH4.1, IH3.1, IH2.1, IH1.1]
      simp [List.append_assoc]
    · simp [containsBadNull, IH1.2, IH2.2, IH4.2]
  | inE subj items =>
    simp only [resolve] at h
    rcases hs : resolve s m subj ep with ⟨rs, ep1⟩
    rw [hs] at h
    cases rs with
    | error e2 => simp [bindR] at h
    | ok sv =>
      dsimp only [bindR] at h
      rcases hl : resolveList s m items ep1 with ⟨rl, ep2⟩
      rw [hl] at h
      cases rl with
      | error e2 => simp at h
      | ok vs =>
        dsimp only at h
        simp only [Prod.mk.injEq] at h
        have IH1 := resolve_ok_cones s m subj ep _ _ hs
        have IH2 := resolveList_ok_cones s m items ep1 _ _ hl
        rw [← h.2]
        refine ⟨?_, ?_⟩
        · simp only [coneRecs]
          rw [IH2.1, IH1.1, List.append_assoc]
        · simp [containsBadNull, IH1.2, IH2.2]
  | anonymous nm args =>
    simp only [resolve] at h
    split at h
    case isTrue hc =>
      have CIH := resolveCone_ok_cones s m args ep v ep' h
      exact ⟨by simp [coneRecs, hc, CIH.1], by simpa [containsBadNull] using CIH.2⟩
    case isFalse hc => simp at h
termination_by sizeOf p

/-- List version of `resolve_ok_cones`, for the members of an `IN`. -/
theorem resolveList_ok_cones (s : Schema) (m : Nat) (ps : SExpList) (ep : ExtraParams)
    (vs : List DExpr) (ep' : ExtraParams) (h : resolveList s m ps ep = (.ok vs, ep')) :
    ep'.cones = ep.cones ++ coneRecsL s m ps ∧ containsBadNullL ps = false := by
  cases ps with
  | nil =>
    simp only [resolveList, Prod.mk.injEq] at h
    rw [← h.2]
    exact ⟨by simp [coneRecsL], rfl⟩
  | cons hd t =>
    simp only [resolveList] at h
    rcases hh : resolve s m hd ep with ⟨rh, ep1⟩
    rw [hh] at h
    cases rh with
    | error e2 => simp at h
    | ok w =>
      dsimp only at h
      rcases ht : resolveList s m t ep1 with ⟨rt, ep2⟩
      rw [ht] at h
      cases rt with
      | error e2 => simp at h
      | ok ws =>
        dsimp only at h
        simp only [Prod.mk.injEq] at h
        have IH1 := resolve_ok_cones s m hd ep _ _ hh
        have IH2 := resolveList_ok_cones s m t ep1 _ _ ht
        rw [← h.2]
        refine ⟨?_, ?_⟩
        · simp only [coneRecsL]
          rw [IH2.1, IH1.1, List.append_assoc]
        · simp [containsBadNullL, IH1.2, IH2.2]
termination_by sizeOf ps

/-- Cone-call version of `resolve_ok_cones`: a successful cone call
appends exactly the ghost records of its argument list, and the argument
values in the appended record are those of the arguments resolved in
isolation (successful arguments are state-independent `Value`s). -/
theorem resolveCone_ok_cones (s : Schema) (m : Nat) (args : SExpList) (ep : ExtraParams)
    (v : DExpr) (ep' : ExtraParams) (h : resolveCone s m args ep = (.ok v, ep')) :
    ep'.cones = ep.cones ++ coneRecsC s m args ∧ containsBadNullL args = false := by
  cases args with
  | nil => simp [resolveCone, SExpList.length] at h
  | cons a t1 =>
    cases t1 with
    | nil => simp [resolveCone, SExpList.length] at h
    | cons b t2 =>
      cases t2 with
      | nil => simp [resolveCone, SExpList.length] at h
      | cons c t3 =>
        cases t3 with
        | cons d t4 =>
          have hlen : (SExpList.cons a (SExpList.cons b (SExpList.cons c
              (SExpList.cons d t4)))).length ≠ 3 := by
            simp only [SExpList.length]
            omega
          rw [resolveCone, if_pos hlen] at h
          simp at h
        | nil =>
          rw [resolveCone, if_neg (by simp [SExpList.length])] at h
          rcases ha : resolve s m a ep with ⟨ra, ep1⟩
          rw [ha] at h
          cases ra with
          | error e2 => simp at h
          | ok va =>
            dsimp only at h
            rcases hga : getValueAttr va with e2 | ra2
            · rw [hga] at h
              simp at h
            · rw [hga] at h
              dsimp only at h
              rcases hb : resolve s m b ep1 with ⟨rb, ep2⟩
              rw [hb] at h
              cases rb with
              | error e2 => simp at h
              | ok vb =>
                dsimp only at h
                rcases hgb : getValueAttr vb with e2 | dec2
                · rw [hgb] at h
                  simp at h
                · rw [hgb] at h
                  dsimp only at h
                  rcases hc : resolve s m c ep2 with ⟨rc, ep3⟩
                  rw [hc] at h
                  cases rc with
                  | error e2 => simp at h
                  | ok vc =>
                    dsimp only at h
                    rcases hgc : getValueAttr vc with e2 | rad2
                    · rw [hgc] at h
                      simp at h
                    · rw [hgc] at h
                      dsimp only at h
                      simp only [Prod.mk.injEq] at h
                      have hva := getValueAttr_ok va ra2 hga
                      subst hva
                      have hvb := getValueAttr_ok vb dec2 hgb
                      subst hvb
                      have hvc := getValueAttr_ok vc rad2 hgc
                      subst hvc
                      have BIHa := resolve_ok_cones s m a ep _ _ ha
                      have BIHb := resolve_ok_cones s m b ep1 _ _ hb
                      have BIHc := resolve_ok_cones s m c ep2 _ _ hc
                      have VSa := resolve_value_shape s m a ep ep1 ra2 ha
                      have VSb := resolve_value_shape s m b ep1 ep2 dec2 hb
                      have VSc := resolve_value_shape s m c ep2 ep3 rad2 hc
                      have hA : argVal s m a = ra2 := by
                        simp [argVal, VSa.2.2 ⟨[], []⟩, getValueAttr]
                      have hB : argVal s m b = dec2 := by
                        simp [argVal, VSb.2.2 ⟨[], []⟩, getValueAttr]
                      have hC : argVal s m c = rad2 := by
                        simp [argVal, VSc.2.2 ⟨[], []⟩, getValueAttr]
                      refine ⟨?_, ?_⟩
                      · rw [← h.2]
                        simp only [coneRecsC, hA, hB, hC,
                          VSa.2.1, VSb.2.1, VSc.2.1]
                        rw [VSc.1, VSb.1, VSa.1]
                        simp
                      · simp [containsBadNullL, BIHa.2, BIHb.2, BIHc.2]
termination_by sizeOf args
end

/-! ## Field-path resolution lemmas -/

/-- When every non-final segment exists and is relational, the schema walk
succeeds and ends on some model. -/
theorem walk_prefixOk (s : Schema) (m : Nat) (pre : List String)
    (h : prefixOk s m pre = true) :
    ∃ mf, walk s (some m) pre = .ok (some mf) := by
  induction pre generalizing m with
  | nil => exact ⟨m, rfl⟩
  | cons cur rest ih =>
    simp only [prefixOk] at h
    rcases hcur : s m cur with _ | rel
    · rw [hcur] at h
      simp at h
    · rw [hcur] at h
      cases rel with
      | none => simp at h
      | some m2 =>
        dsimp only at h
        obtain ⟨mf, hw⟩ := ih m2 h
        refine ⟨mf, ?_⟩
        simp only [walk]
        rw [hcur]
        exact hw

/-- With a valid relational prefix, a missing final segment is turned into
the package's typed `FieldDoesNotExist(final segment)`. -/
theorem resolveColumn_final_missing (s : Schema) (m : Nat) (pre : List String)
    (colId : String) (mf : Nat) (hw : walk s (some m) pre = .ok (some mf))
    (hcol : s mf colId = none) :
    resolveColumn s m pre colId = .error (.fieldDoesNotExist colId) := by
  rw [resolveColumn, hw]
  dsimp only
  rw [hcol]

/-- With a valid relational prefix and an existing final segment, column
resolution returns the `F` reference of all segments joined by `"__"`. -/
theorem resolveColumn_final_found (s : Schema) (m : Nat) (pre : List String)
    (colId : String) (mf : Nat) (fd : Option Nat)
    (hw : walk s (some m) pre = .ok (some mf)) (hcol : s mf colId = some fd) :
    resolveColumn s m pre colId =
      .ok (.f (String.intercalate "__" (pre ++ [colId]))) := by
  rw [resolveColumn, hw]
  dsimp only
  rw [hcol]

/-! ## Claim theorems -/

/-- C1 counterexample: on a schema where model 0 has only the plain fields
`ra` and `b`, resolving the dotted path `a.b` fails with Django's own
`FieldDoesNotExist` (the `get_field` raise on a non-final segment at line
150 is outside the `try` block), not with the package's typed
`FieldDoesNotExist("a")` required by the claim; and a non-relational
non-final segment (path `b.x`) fails with a generic `AttributeError`. -/
theorem c1_counterexample :
    resolveColumn schemaFlat 0 ["a"] "b" = .error (.djangoFieldDoesNotExist 0 "a") ∧
    resolveColumn schemaFlat 0 ["b"] "x" = .error .attributeError ∧
    Err.djangoFieldDoesNotExist 0 "a" ≠ Err.fieldDoesNotExist "a" ∧
    isTypedErr (.djangoFieldDoesNotExist 0 "a") = false ∧
    isTypedErr .attributeError = false :=
  ⟨rfl, rfl, by decide, rfl, rfl⟩

/-- C1 (amended): when every non-final segment of the path exists and is
relational, field-path resolution fails with the typed
`FieldDoesNotExist(final segment)` exactly when the final segment is
absent, and on success returns the `F` reference of all path segments
joined with the fixed separator `"__"`.  (Without that prefix condition a
missing non-final segment surfaces the schema catalog's own error and a
non-relational non-final segment a generic attribute fault — see the
counterexample.) -/
theorem c1_resolveColumn_amended (s : Schema) (m : Nat) (pre : List String)
    (colId : String) (h : prefixOk s m pre = true) :
    ∃ mf, walk s (some m) pre = .ok (some mf) ∧
      (s mf colId = none →
        resolveColumn s m pre colId = .error (.fieldDoesNotExist colId)) ∧
      (∀ fd, s mf colId = some fd →
        resolveColumn s m pre colId =
          .ok (.f (String.intercalate "__" (pre ++ [colId])))) := by
  obtain ⟨mf, hw⟩ := walk_prefixOk s m pre h
  exact ⟨mf, hw, fun hnone => resolveColumn_final_missing s m pre colId mf hw hnone,
    fun fd hfd => resolveColumn_final_found s m pre colId mf fd hw hfd⟩

/-- Witness for C1 (amended) at the concrete relational schema: the path
`rel.x` resolves to `F("rel__x")`, and `rel.y` fails with the typed
`FieldDoesNotExist("y")`. -/
theorem c1_resolveColumn_amended_witness :
    (∃ mf, walk schemaRel (some 0) ["rel"] = .ok (some mf) ∧
      (schemaRel mf "x" = none →
        resolveColumn schemaRel 0 ["rel"] "x" = .error (.fieldDoesNotExist "x")) ∧
      (∀ fd, schemaRel mf "x" = some fd →
        resolveColumn schemaRel 0 ["rel"] "x" =
          .ok (.f (String.intercalate "__" (["rel"] ++ ["x"]))))) ∧
    resolveColumn schemaRel 0 ["rel"] "x" = .ok (.f "rel__x") ∧
    resolveColumn schemaRel 0 ["rel"] "y" = .error (.fieldDoesNotExist "y") :=
  ⟨c1_resolveColumn_amended schemaRel 0 ["rel"] "x" (by decide), rfl, rfl⟩

/-- C2 counterexample: a cone call whose first argument is a field
reference (`cone(ra, 2, 3)` against a schema that has field `ra`) fails
with a generic Python `AttributeError` (reading `.value` off an `F`
object at line 167), which is none of the four typed errors. -/
theorem c2_counterexample :
    resolve schemaFlat 0
      (.anonymous "cone" (.cons (.column [] "ra" false)
        (.cons (.lit (.intL 2)) (.cons (.lit (.intL 3)) .nil)))) freshParams
      = (.error .attributeError, freshParams) ∧
    isTypedErr .attributeError = false :=
  ⟨rfl, rfl⟩

/-- C2 (amended): the dispatch raises only the typed errors, but the cone
arguments are not checked to be numeric scalars: an argument that
resolves to anything but a `Value` fails with an untyped
`AttributeError` when its `.value` attribute is read, and string scalar
arguments are accepted without any error. -/
theorem c2_cone_argument_faults (s : Schema) (m : Nat) (a b c : SExp)
    (ep ep1 : ExtraParams) (v : DExpr) (x y z : String)
    (h : resolve s m a ep = (.ok v, ep1))
    (hv : getValueAttr v = .error .attributeError) :
    resolveCone s m (.cons a (.cons b (.cons c .nil))) ep
      = (.error .attributeError, ep1) ∧
    resolveCone s m (.cons (.lit (.str x)) (.cons (.lit (.str y))
        (.cons (.lit (.str z)) .nil))) ep
      = (.ok (.qkw (coneName ep.cones.length) (.b true)),
         { ep with cones := ep.cones ++ [⟨.s x, .s y, .s z⟩] }) := by
  constructor
  · rw [resolveCone, if_neg (by simp [SExpList.length])]
    rw [h]
    dsimp only
    rw [hv]
  · rw [resolveCone, if_neg (by simp [SExpList.length])]
    rfl

/-- Witness for C2 (amended): `cone(ra, 2, 3)` raises `AttributeError`,
and `cone("p","q","r")` succeeds, recording a cone of three strings. -/
theorem c2_cone_argument_faults_witness :
    resolveCone schemaFlat 0 (.cons (.column [] "ra" false)
      (.cons (.lit (.intL 2)) (.cons (.lit (.intL 3)) .nil))) freshParams
      = (.error .attributeError, freshParams) ∧
    resolveCone schemaFlat 0 (.cons (.lit (.str "p")) (.cons (.lit (.str "q"))
      (.cons (.lit (.str "r")) .nil))) freshParams
      = (.ok (.qkw (coneName 0) (.b true)),
         { freshParams with cones := freshParams.cones ++ [⟨.s "p", .s "q", .s "r"⟩] }) :=
  c2_cone_argument_faults schemaFlat 0 (.column [] "ra" false) (.lit (.intL 2))
    (.lit (.intL 3)) freshParams freshParams (.f "ra") "p" "q" "r" rfl rfl

/-- C3: a cone call (any capitalisation of the name) with exactly 3
arguments resolving to scalar `Value`s derives its synthetic field name
from the accumulator length before the append — `cone_query` at length 0,
`cone_query{n}` at length n ≥ 1 — appends the record, and returns the
predicate `Q(**{name: True})`, i.e. "synthetic field equals boolean
true". -/
theorem c3_cone_synthetic_name (s : Schema) (m : Nat) (nm : String) (a b c : SExp)
    (ep ep1 ep2 ep3 : ExtraParams) (va vb vc : Scalar)
    (hnm : lowerStr nm = "cone")
    (h1 : resolve s m a ep = (.ok (.value va), ep1))
    (h2 : resolve s m b ep1 = (.ok (.value vb), ep2))
    (h3 : resolve s m c ep2 = (.ok (.value vc), ep3)) :
    resolve s m (.anonymous nm (.cons a (.cons b (.cons c .nil)))) ep
      = (.ok (.qkw (coneName ep3.cones.length) (.b true)),
         { ep3 with cones := ep3.cones ++ [⟨va, vb, vc⟩] }) ∧
    coneName 0 = "cone_query" ∧
    (∀ k, k ≠ 0 → coneName k = "cone_query" ++ toString k) := by
  refine ⟨?_, rfl, fun k hk => by simp [coneName, hk]⟩
  simp only [resolve, hnm, if_true]
  rw [resolveCone, if_neg (by simp [SExpList.length])]
  rw [h1]
  dsimp only [getValueAttr]
  rw [h2]
  dsimp only [getValueAttr]
  rw [h3]

/-- Witness for C3: the first `CONE(1,2,3)` on a fresh accumulator yields
the bare name `cone_query` and the record `{1,2,3}`. -/
theorem c3_cone_synthetic_name_witness :
    resolve schemaEmpty 0 (.anonymous "CONE" (.cons (.lit (.intL 1))
      (.cons (.lit (.intL 2)) (.cons (.lit (.intL 3)) .nil)))) freshParams
      = (.ok (.qkw (coneName freshParams.cones.length) (.b true)),
         { freshParams with cones := freshParams.cones ++ [⟨.i 1, .i 2, .i 3⟩] }) ∧
    coneName 0 = "cone_query" ∧
    (∀ k, k ≠ 0 → coneName k = "cone_query" ++ toString k) :=
  c3_cone_synthetic_name schemaEmpty 0 "CONE" (.lit (.intL 1)) (.lit (.intL 2))
    (.lit (.intL 3)) freshParams freshParams freshParams freshParams
    (.i 1) (.i 2) (.i 3) rfl rfl rfl rfl

/-- C4 counterexample: `cone(1,2,3) BETWEEN 1 AND 2` resolves successfully
yet appends TWO identical records for its single cone call site, because
the `BETWEEN` branch (lines 123-124) resolves its subject once per
bound — refuting "one record appended per cone call". -/
theorem c4_counterexample :
    coneCallCount (.between (.anonymous "cone" (.cons (.lit (.intL 1))
      (.cons (.lit (.intL 2)) (.cons (.lit (.intL 3)) .nil))))
      (.lit (.intL 1)) (.lit (.intL 2))) = 1 ∧
    ((resolve schemaEmpty 0 (.between (.anonymous "cone" (.cons (.lit (.intL 1))
      (.cons (.lit (.intL 2)) (.cons (.lit (.intL 3)) .nil))))
      (.lit (.intL 1)) (.lit (.intL 2))) freshParams).1).isOk = true ∧
    ((resolve schemaEmpty 0 (.between (.anonymous "cone" (.cons (.lit (.intL 1))
      (.cons (.lit (.intL 2)) (.cons (.lit (.intL 3)) .nil))))
      (.lit (.intL 1)) (.lit (.intL 2))) freshParams).2).cones
      = [⟨.i 1, .i 2, .i 3⟩, ⟨.i 1, .i 2, .i 3⟩] :=
  ⟨rfl, rfl, rfl⟩

/-- C4 (amended): on every successful resolution the cones list is the old
list extended with exactly the ghost traversal `coneRecs` — one record
per *resolution* of each cone call, in resolver visit order: depth-first
left-to-right, except that the subject of a `BETWEEN` is resolved (and
its cone calls recorded) twice, once per bound; records are never
reordered, removed, or deduplicated. -/
theorem c4_cones_order (s : Schema) (m : Nat) (p : SExp) (ep : ExtraParams)
    (v : DExpr) (ep' : ExtraParams) (h : resolve s m p ep = (.ok v, ep')) :
    ep'.cones = ep.cones ++ coneRecs s m p :=
  (resolve_ok_cones s m p ep v ep' h).1

/-- Witness for C4 (amended): `cone(1,2,3) AND cone(4,5,6)` appends its
two records in source order. -/
theorem c4_cones_order_witness :
    ({ cones := [⟨.i 1, .i 2, .i 3⟩, ⟨.i 4, .i 5, .i 6⟩], aliases := [] } :
        ExtraParams).cones
      = freshParams.cones ++ coneRecs schemaEmpty 0
          (.andE (.anonymous "cone" (.cons (.lit (.intL 1))
            (.cons (.lit (.intL 2)) (.cons (.lit (.intL 3)) .nil))))
          (.anonymous "cone" (.cons (.lit (.intL 4))
            (.cons (.lit (.intL 5)) (.cons (.lit (.intL 6)) .nil))))) :=
  c4_cones_order schemaEmpty 0
    (.andE (.anonymous "cone" (.cons (.lit (.intL 1))
      (.cons (.lit (.intL 2)) (.cons (.lit (.intL 3)) .nil))))
    (.anonymous "cone" (.cons (.lit (.intL 4))
      (.cons (.lit (.intL 5)) (.cons (.lit (.intL 6)) .nil)))))
    freshParams
    (.qand (.q (.qkw "cone_query" (.b true))) (.q (.qkw "cone_query1" (.b true))))
    ⟨[⟨.i 1, .i 2, .i 3⟩, ⟨.i 4, .i 5, .i 6⟩], []⟩ rfl

/-- C5: literal dispatch — a string literal resolves to a string `Value`,
integer-literal text to an integer `Value` and never a float, decimal
text to a float `Value`, and a literal of any other kind fails with
`InvalidLiteral`. -/
theorem c5_literal_dispatch (s : Schema) (m : Nat) (sv : String) (n : Int) (q : Rat)
    (ep : ExtraParams) :
    resolve s m (.lit (.str sv)) ep = (.ok (.value (.s sv)), ep) ∧
    resolve s m (.lit (.intL n)) ep = (.ok (.value (.i n)), ep) ∧
    resolve s m (.lit (.dec q)) ep = (.ok (.value (.f q)), ep) ∧
    resolve s m (.lit .other) ep = (.error .invalidLiteral, ep) ∧
    (∀ q2 : Rat, DExpr.value (.i n) ≠ .value (.f q2)) :=
  ⟨rfl, rfl, rfl, rfl, fun q2 hcontra => by simp at hcontra⟩

/-- C6: Equals/Is with `NULL` on the right produce `IsNull(left, True)`,
NotEquals with `NULL` produces `IsNull(left, False)`; with a non-NULL
right operand Equals/Is produce `Exact(left, right)` and NotEquals the
negation `~Exact(left, right)`. -/
theorem c6_null_comparisons (s : Schema) (m : Nat) (l r : SExp)
    (ep ep1 ep2 : ExtraParams) (lv rv : DExpr)
    (h1 : resolve s m l ep = (.ok lv, ep1))
    (h2 : resolve s m r ep1 = (.ok rv, ep2))
    (hr : isNullE r = false) :
    resolve s m (.eq l .nullE) ep = (.ok (.isnull lv true), ep1) ∧
    resolve s m (.isE l .nullE) ep = (.ok (.isnull lv true), ep1) ∧
    resolve s m (.neq l .nullE) ep = (.ok (.isnull lv false), ep1) ∧
    resolve s m (.eq l r) ep = (.ok (.exactE lv rv), ep2) ∧
    resolve s m (.isE l r) ep = (.ok (.exactE lv rv), ep2) ∧
    resolve s m (.neq l r) ep = (.ok (.qnot (.exactE lv rv)), ep2) := by
  refine ⟨?_, ?_, ?_, ?_, ?_, ?_⟩
  · simp [resolve, bindR, isNullE, h1]
  · simp [resolve, bindR, isNullE, h1]
  · simp [resolve, bindR, isNullE, h1]
  · simp [resolve, bindR, hr, h1, h2]
  · simp [resolve, bindR, hr, h1, h2]
  · simp [resolve, bindR, hr, h1, h2]

/-- Witness for C6 at concrete operands: `1 = NULL`, `1 IS NULL`,
`1 != NULL`, `1 = "x"`, and `1 != "x"`. -/
theorem c6_null_comparisons_witness :
    resolve schemaEmpty 0 (.eq (.lit (.intL 1)) .nullE) freshParams
      = (.ok (.isnull (.value (.i 1)) true), freshParams) ∧
    resolve schemaEmpty 0 (.neq (.lit (.intL 1)) .nullE) freshParams
      = (.ok (.isnull (.value (.i 1)) false), freshParams) ∧
    resolve schemaEmpty 0 (.neq (.lit (.intL 1)) (.lit (.str "x"))) freshParams
      = (.ok (.qnot (.exactE (.value (.i 1)) (.value (.s "x")))), freshParams) :=
  ⟨(c6_null_comparisons schemaEmpty 0 (.lit (.intL 1)) (.lit (.str "x"))
      freshParams freshParams freshParams (.value (.i 1)) (.value (.s "x"))
      rfl rfl rfl).1,
   (c6_null_comparisons schemaEmpty 0 (.lit (.intL 1)) (.lit (.str "x"))
      freshParams freshParams freshParams (.value (.i 1)) (.value (.s "x"))
      rfl rfl rfl).2.2.1,
   (c6_null_comparisons schemaEmpty 0 (.lit (.intL 1)) (.lit (.str "x"))
      freshParams freshParams freshParams (.value (.i 1)) (.value (.s "x"))
      rfl rfl rfl).2.2.2.2.2⟩

/-- C7: a column node with the quoted flag resolves to a string `Value` of
the identifier text — never to an `F` field reference, whatever the
schema contains — while without the flag it delegates to field-path
resolution. -/
theorem c7_quoted_column (s : Schema) (m : Nat) (pre : List String) (colId : String)
    (ep : ExtraParams) :
    resolve s m (.column pre colId true) ep = (.ok (.value (.s colId)), ep) ∧
    (∀ fname, ((resolve s m (.column pre colId true) ep).1) ≠ .ok (.f fname)) ∧
    resolve s m (.column pre colId false) ep = (resolveColumn s m pre colId, ep) :=
  ⟨rfl, fun fname hcontra => by simp [resolve] at hcontra, rfl⟩

/-- C8 counterexample: an outer `resolveCone` call with exactly 3
arguments still surfaces `InvalidConeNumberArguments` when its first
argument is itself a cone call of wrong arity (`cone(cone(1,2), 2, 3)`),
refuting "never raises InvalidConeNumberArguments when exactly 3
arguments are given". -/
theorem c8_counterexample :
    SExpList.length (.cons (.anonymous "cone" (.cons (.lit (.intL 1))
      (.cons (.lit (.intL 2)) .nil)))
      (.cons (.lit (.intL 2)) (.cons (.lit (.intL 3)) .nil))) = 3 ∧
    resolveCone schemaEmpty 0 (.cons (.anonymous "cone" (.cons (.lit (.intL 1))
      (.cons (.lit (.intL 2)) .nil)))
      (.cons (.lit (.intL 2)) (.cons (.lit (.intL 3)) .nil))) freshParams
      = (.error .invalidConeNumberArguments, freshParams) :=
  ⟨rfl, rfl⟩

/-- C8 (amended): `resolveCone` raises `InvalidConeNumberArguments` itself
exactly when the argument list length differs from 3 (before touching the
accumulator); with exactly 3 arguments the error can only be propagated
out of a nested cone call of wrong arity inside an argument — when no
such nested call exists it cannot surface at all. -/
theorem c8_cone_arity (s : Schema) (m : Nat) (args : SExpList) (ep : ExtraParams) :
    (args.length ≠ 3 →
      resolveCone s m args ep = (.error .invalidConeNumberArguments, ep)) ∧
    (args.length = 3 → noBadConeL args = true →
      (resolveCone s m args ep).1 ≠ .error .invalidConeNumberArguments) := by
  constructor
  · intro hne
    rw [resolveCone.eq_def, if_pos hne]
  · intro h3 hl
    exact resolveCone_no_icna s m args ep h3 hl

/-- Witness for C8 (amended): `cone(1,2)` raises the arity error,
`cone(1,2,3)` cannot surface it. -/
theorem c8_cone_arity_witness :
    resolveCone schemaEmpty 0 (.cons (.lit (.intL 1)) (.cons (.lit (.intL 2)) .nil))
      freshParams = (.error .invalidConeNumberArguments, freshParams) ∧
    ((resolveCone schemaEmpty 0 (.cons (.lit (.intL 1)) (.cons (.lit (.intL 2))
      (.cons (.lit (.intL 3)) .nil))) freshParams).1)
      ≠ .error .invalidConeNumberArguments :=
  ⟨(c8_cone_arity schemaEmpty 0
      (.cons (.lit (.intL 1)) (.cons (.lit (.intL 2)) .nil)) freshParams).1
      (by decide),
   (c8_cone_arity schemaEmpty 0
      (.cons (.lit (.intL 1)) (.cons (.lit (.intL 2))
        (.cons (.lit (.intL 3)) .nil))) freshParams).2 (by decide) (by decide)⟩

/-- C9 counterexample: `badliteral * NULL` contains a badly placed `Null`,
but resolution fails with `InvalidLiteral` — the left operand is resolved
first — not with `InvalidQuery`. -/
theorem c9_counterexample :
    containsBadNull (.mul (.lit .other) .nullE) = true ∧
    resolve schemaEmpty 0 (.mul (.lit .other) .nullE) freshParams
      = (.error .invalidLiteral, freshParams) ∧
    Err.invalidLiteral ≠ Err.invalidQuery :=
  ⟨rfl, rfl, by decide⟩

/-- C9 (amended): a `Null` node anywhere other than as the immediate right
operand of Equals/Is/NotEquals makes resolution fail — the `Null` node
itself always resolves to `InvalidQuery`, though an earlier fault in the
tree may surface a different typed error first. -/
theorem c9_bad_null_fails (s : Schema) (m : Nat) (p : SExp) (ep : ExtraParams)
    (h : containsBadNull p = true) :
    ((resolve s m p ep).1).isOk = false ∧
    (resolve s m SExp.nullE ep).1 = .error .invalidQuery := by
  refine ⟨?_, rfl⟩
  rcases hr : resolve s m p ep with ⟨res, ep'⟩
  cases res with
  | error e => rfl
  | ok v =>
    have hbn := (resolve_ok_cones s m p ep v ep' hr).2
    rw [hbn] at h
    exact absurd h (by simp)

/-- Witness for C9 (amended): `NULL * 1` fails, and the bare `NULL` node
resolves to `InvalidQuery`. -/
theorem c9_bad_null_fails_witness :
    ((resolve schemaEmpty 0 (.mul .nullE (.lit (.intL 1))) freshParams).1).isOk
      = false ∧
    (resolve schemaEmpty 0 SExp.nullE freshParams).1 = .error .invalidQuery :=
  c9_bad_null_fails schemaEmpty 0 (.mul .nullE (.lit (.intL 1))) freshParams
    (by decide)

/-- C10: the aliases map of the accumulator is never written by any
resolution step: after any single resolution, successful or failed, it
equals what it was before — in particular still empty on a fresh
`Parser` — so the cones list is the only accumulator component that
changes. -/
theorem c10_aliases_never_written (s : Schema) (m : Nat) (p : SExp) (ep : ExtraParams) :
    ((resolve s m p ep).2).aliases = ep.aliases ∧
    ((resolve s m p freshParams).2).aliases = [] :=
  ⟨resolve_aliases s m p ep, resolve_aliases s m p freshParams⟩

end QL
